import Mathlib

/-!
# Dashboard scripts: `analytics.js`, `trading.js`, `settings.js`

A shallow embedding of the three browser scripts.  JavaScript values as
`JSON.parse` yields them are the inductive type `JVal`; the handful of language
operations the scripts use (`.`-access, `===` against a string literal, `||`,
string conversion, `Array.prototype.map`/`join`) are total functions returning
`Except JsError _` where the language can throw.  Statements run in the monad
`Js`, which threads the page state and keeps it when an exception is thrown, so
that `try`/`catch` can observe the assignments made before the throw.

An `async` function is split at its `await fetch(...)`: the part that runs when
the function is called (`*.start`, it issues the request) and the part that runs
when the request settles (`*.resume`).
-/

namespace Chrollos

/-! ## JavaScript values -/

/-- An `Error` object: only `name` and `message` are ever read. -/
structure JsError where
  name : String
  message : String
deriving DecidableEq, Repr

/-- A JavaScript value as it occurs in these scripts: the result of `JSON.parse`,
or `undefined` from reading an absent property.  The scripts do no arithmetic,
so a number is kept as its rendering `String(x)`; both zeros render as `"0"`.
An object is the list of its own properties; lookup takes the first binding of
a key. -/
inductive JVal where
  | undefined
  | null
  | bool (b : Bool)
  | num (text : String)
  | str (s : String)
  | arr (items : List JVal)
  | obj (fields : List (String × JVal))
deriving Repr

/-- The `TypeError` of reading the property `key` of `base`, which is `null` or
`undefined`, with the message V8 gives it. -/
def typeErrorRead (base key : String) : JsError :=
  ⟨"TypeError", "Cannot read properties of " ++ base ++ " (reading \x27" ++ key ++ "\x27)"⟩

/-- The `TypeError` of calling something that is not a function. -/
def typeErrorCall (what : String) : JsError :=
  ⟨"TypeError", what ++ " is not a function"⟩

/-- The `TypeError` of converting an object whose `toString` is shadowed by a
non-callable own property. -/
def typeErrorPrimitive : JsError :=
  ⟨"TypeError", "Cannot convert object to primitive value"⟩

/-- Own-property lookup in a parsed object. -/
def ownProp (fields : List (String × JVal)) (key : String) : JVal :=
  match fields.lookup key with
  | some v => v
  | none => .undefined

/-- Reading `v.key` without the throw: `undefined` unless `v` is an object with
that own property.  The keys read by the scripts (`status`, `message`, `orders`,
`history`, `date`, `value`, ...) are on no built-in prototype. -/
def propOf (v : JVal) (key : String) : JVal :=
  match v with
  | .obj fields => ownProp fields key
  | _ => .undefined

/-- The expression `v.key`: throws on `null` and `undefined`. -/
def getProp (v : JVal) (key : String) : Except JsError JVal :=
  match v with
  | .undefined => .error (typeErrorRead "undefined" key)
  | .null => .error (typeErrorRead "null" key)
  | w => .ok (propOf w key)

/-- The value `v === lit` for a string literal `lit`. -/
def strictEqStr (v : JVal) (lit : String) : Bool :=
  match v with
  | .str s => s == lit
  | _ => false

/-- The conversion `ToBoolean`. -/
def truthy (v : JVal) : Bool :=
  match v with
  | .undefined => false
  | .null => false
  | .bool b => b
  | .num text => !(text == "0" || text == "NaN")
  | .str s => !(s == "")
  | .arr _ => true
  | .obj _ => true

/-- The expression `a || b`. -/
def orElse (a b : JVal) : JVal :=
  if truthy a then a else b

/-- One element inside `join`: the holes `null` and `undefined` give the empty
string, any other element its own conversion `conv`. -/
def itemStr (v : JVal) (conv : Except JsError String) : Except JsError String :=
  match v with
  | .undefined => .ok ""
  | .null => .ok ""
  | _ => conv

/-- String concatenation of two conversions, the left one evaluated first. -/
def catStr (a b : Except JsError String) : Except JsError String :=
  match a with
  | .error e => .error e
  | .ok x =>
    match b with
    | .error e => .error e
    | .ok y => .ok (x ++ y)

mutual
/-- The conversion `ToString`, as used by template literals, by `+` with a string
operand and by DOM setters.  An array converts through `join(",")`; a plain
object gives `[object Object]` unless an own `toString` entry (never callable in
parsed JSON) shadows `Object.prototype.toString`, in which case the conversion
throws. -/
def toStr : JVal → Except JsError String
  | .undefined => .ok "undefined"
  | .null => .ok "null"
  | .bool true => .ok "true"
  | .bool false => .ok "false"
  | .num text => .ok text
  | .str s => .ok s
  | .arr [] => .ok ""
  | .arr (x :: rest) => catStr (itemStr x (toStr x)) (joinRest rest)
  | .obj fields =>
    if fields.any (fun kv => kv.1 == "toString") then .error typeErrorPrimitive
    else .ok "[object Object]"
/-- The elements after the first inside `join(",")`, each behind its comma. -/
def joinRest : List JVal → Except JsError String
  | [] => .ok ""
  | x :: rest => catStr (catStr (.ok ",") (itemStr x (toStr x))) (joinRest rest)
end


/-- The expression `v + lit` for a string literal `lit`: string concatenation. -/
def plusStr (v : JVal) (lit : String) : Except JsError String :=
  catStr (toStr v) (.ok lit)

/-- The callback of `Array.prototype.map` applied to each element in order; the
first throw ends the loop. -/
def mapE {β : Type} (f : JVal → Except JsError β) : List JVal → Except JsError (List β)
  | [] => .ok []
  | h :: rest =>
    match f h with
    | .error e => .error e
    | .ok v =>
      match mapE f rest with
      | .error e => .error e
      | .ok vs => .ok (v :: vs)

/-- The expression `xs.map(f)` for a value `xs` read from the property chain
`what`: `Array.prototype.map` on an array, a `TypeError` on anything else (a
parsed value holds no function). -/
def arrayMap {β : Type} (xs : JVal) (what : String) (f : JVal → Except JsError β) :
    Except JsError (List β) :=
  match xs with
  | .undefined => .error (typeErrorRead "undefined" "map")
  | .null => .error (typeErrorRead "null" "map")
  | .arr items => mapE f items
  | _ => .error (typeErrorCall (what ++ ".map"))

/-- The call of `join` with the empty separator on an array of strings. -/
def joinEmpty : List String → String
  | [] => ""
  | x :: rest => x ++ joinEmpty rest

/-! ## The page -/

/-- A Chart.js chart: its label list, the data of its first dataset, and how
often `update()` redrew it. -/
structure Chart where
  labels : List JVal
  data : List JVal
  updates : Nat

/-- The elements and module variables of the analytics page. -/
structure AnalyticsDom where
  totalReturn : String
  winRate : String
  avgTrade : String
  sharpeRatio : String
  maxDrawdown : String
  riskReward : String
  tradingHistoryChart : Option Chart
  tradeDistributionChart : Option Chart

/-- The elements and module variables of the trading page: the chart variable,
the markup last assigned to the `innerHTML` of `#open-orders` (the string
itself, which the browser goes on to parse), the values of the order form and
the `data-side` of the active side button, if one is active. -/
structure TradingDom where
  tradingChart : Option Chart
  openOrders : String
  symbol : String
  orderType : String
  amount : String
  price : String
  activeSide : Option String

/-- The form fields of the settings page. -/
structure SettingsDom where
  apiKey : String
  apiSecret : String
  tradingPair : String
  positionSize : String
  stopLoss : String
  takeProfit : String
  emailNotifications : Bool
  tradeNotifications : Bool
  errorNotifications : Bool
  maxDailyLoss : String
  maxPositions : String
  leverage : String

/-- The four polled feeds. -/
inductive Feed where
  | performanceMetrics
  | tradingHistory
  | tradeDistribution
  | openOrders
deriving DecidableEq, Repr

/-- The four forms of the settings page. -/
inductive SettingsForm where
  | api
  | trading
  | notifications
  | risk
deriving DecidableEq, Repr

/-- An `async` function suspended at its `await fetch(...)`. -/
inductive Pending where
  | refresh (feed : Feed)
  | placeOrder
  | saveSettings (form : SettingsForm)
  | loadSettings
deriving DecidableEq, Repr

/-- The two callbacks handed to `setInterval`: the arrow function of
`analytics.js` and `updateOpenOrders` of `trading.js`. -/
inductive Callback where
  | analyticsTick
  | updateOpenOrders
deriving DecidableEq, Repr

/-- What the scripts do to the world outside the page state, in order. -/
inductive Effect where
  | preventDefault
  | fetch (method url : String) (body : Option JVal)
  | consoleError (label : String) (error : JsError)
  | showSuccess (message : String)
  | showError (message : JVal)
  | alert (text : String)

/-- The state the scripts run in: the three pages side by side (each script
touches only its own), the trace of effects, the requests issued and not yet
settled, and the timers registered with `setInterval`.  Every element a script
looks up by id is taken to exist on its page, and an element keeps the string
last assigned to it. -/
structure World where
  analytics : AnalyticsDom
  trading : TradingDom
  settings : SettingsDom
  log : List Effect
  inFlight : List Pending
  timers : List (Nat × Callback)

/-- What `response.json()` needs of a response: the HTTP status code (never read
by the scripts) and the outcome of parsing the body. -/
structure Response where
  status : Nat
  json : Except JsError JVal

/-- How a `fetch` settles: rejected with an error, or fulfilled with a response
of any status code. -/
abbrev FetchOutcome := Except JsError Response

/-! ## Statements -/

/-- A statement sequence: from a world to a result or a thrown error, and the
world reached, which is kept in both cases. -/
def Js (α : Type) : Type := World → Except JsError α × World

namespace Js

/-- Normal completion. -/
def ret {α : Type} (a : α) : Js α := fun w => (.ok a, w)

/-- Sequencing: a throw of the first part skips the second. -/
def seq {α β : Type} (m : Js α) (f : α → Js β) : Js β := fun w =>
  match m w with
  | (.ok a, w1) => f a w1
  | (.error e, w1) => (.error e, w1)

instance : Monad Js where
  pure := ret
  bind := seq

/-- An expression evaluated for its value or its throw. -/
def eval {α : Type} (x : Except JsError α) : Js α := fun w => (x, w)

/-- A state update that cannot throw. -/
def update (f : World → World) : Js Unit := fun w => (.ok (), f w)

/-- A read of the state. -/
def get {α : Type} (f : World → α) : Js α := fun w => (.ok (f w), w)

/-- The statement `try body catch (error) handler`. -/
def tryCatch (body : Js Unit) (handler : JsError → Js Unit) : Js Unit := fun w =>
  match body w with
  | (.ok u, w1) => (.ok u, w1)
  | (.error e, w1) => handler e w1

end Js

/-- A call of `fetch`: the request is on its way and the caller is suspended
as `who` until it settles. -/
def fetch (method url : String) (body : Option JVal) (who : Pending) : Js Unit :=
  Js.update fun w =>
    { w with log := w.log ++ [.fetch method url body], inFlight := w.inFlight ++ [who] }

/-- The request of `who` has settled: it is no longer in flight. -/
def settle (who : Pending) : Js Unit :=
  Js.update fun w => { w with inFlight := w.inFlight.erase who }

/-- The statement `console.error(label, error)`. -/
def consoleError (label : String) (error : JsError) : Js Unit :=
  Js.update fun w => { w with log := w.log ++ [.consoleError label error] }

/-- The two awaits `await fetch(...)` and `await response.json()`: the parsed
body, or the throw of whichever promise rejected. -/
def awaitJson (net : FetchOutcome) : Js JVal :=
  match net with
  | .error e => Js.eval (.error e)
  | .ok response => Js.eval response.json

/-- The conversion of the `textContent` setter: `null` and `undefined` clear
the element. -/
def domText (v : JVal) : Except JsError String :=
  match v with
  | .undefined => .ok ""
  | .null => .ok ""
  | w => toStr w

/-- The conversion of the `value` setter of a form control: `null` clears it. -/
def domValue (v : JVal) : Except JsError String :=
  match v with
  | .null => .ok ""
  | w => toStr w

namespace Js

/-- An assignment to a property of a page element or chart: the right-hand side
is evaluated, then stored. -/
def assign {α : Type} (rhs : Except JsError α) (store : α → World → World) : Js Unit := fun w =>
  match rhs with
  | .error e => (.error e, w)
  | .ok a => (.ok (), store a w)

end Js

/-- The call `setInterval(callback, ms)`. -/
def setInterval (callback : Callback) (ms : Nat) : Js Unit :=
  Js.update fun w => { w with timers := w.timers ++ [(ms, callback)] }

/-! ## `analytics.js` -/

namespace Analytics

/-- Lines 5-48: both chart variables are assigned fresh charts. -/
def initializeCharts : Js Unit :=
  Js.update fun w => { w with analytics := { w.analytics with
    tradingHistoryChart := some ⟨[], [], 0⟩,
    tradeDistributionChart :=
      some ⟨[.str "Winning Trades", .str "Losing Trades"], [.num "0", .num "0"], 0⟩ } }

/-- Storing into an element of the analytics page. -/
def store (f : AnalyticsDom → AnalyticsDom) (w : World) : World :=
  { w with analytics := f w.analytics }

/-- An assignment `tradingHistoryChart.data.<field> = rhs`: the chart variable
is dereferenced first, then the right-hand side is evaluated, then stored. -/
def assignHistory {α : Type} (rhs : Except JsError α) (put : α → Chart → Chart) : Js Unit :=
  fun w =>
    match w.analytics.tradingHistoryChart with
    | none => (.error (typeErrorRead "undefined" "data"), w)
    | some c => Js.assign rhs (fun a => store fun d => { d with tradingHistoryChart := some (put a c) }) w

/-- An assignment `tradeDistributionChart.data.<field> = rhs`. -/
def assignDistribution {α : Type} (rhs : Except JsError α) (put : α → Chart → Chart) : Js Unit :=
  fun w =>
    match w.analytics.tradeDistributionChart with
    | none => (.error (typeErrorRead "undefined" "data"), w)
    | some c => Js.assign rhs (fun a => store fun d => { d with tradeDistributionChart := some (put a c) }) w

/-- The method call `chart.update()`. -/
def redraw (c : Chart) : Chart := { c with updates := c.updates + 1 }

/-- Lines 51-53: the call of `updatePerformanceMetrics` up to its first await. -/
def updatePerformanceMetrics.start : Js Unit :=
  fetch "GET" "/api/performance_metrics" none (.refresh .performanceMetrics)

/-- Lines 53-67: `updatePerformanceMetrics` from the moment its request settles. -/
def updatePerformanceMetrics.resume (net : FetchOutcome) : Js Unit := do
  settle (.refresh .performanceMetrics)
  Js.tryCatch
    (do
      let data ← awaitJson net
      let status ← Js.eval (getProp data "status")
      if strictEqStr status "success" then do
        Js.assign (do let v ← getProp data "total_return"; plusStr v "%")
          (fun t => store fun d => { d with totalReturn := t })
        Js.assign (do let v ← getProp data "win_rate"; plusStr v "%")
          (fun t => store fun d => { d with winRate := t })
        Js.assign (do let v ← getProp data "avg_trade"; plusStr v "%")
          (fun t => store fun d => { d with avgTrade := t })
        Js.assign (do let v ← getProp data "sharpe_ratio"; domText v)
          (fun t => store fun d => { d with sharpeRatio := t })
        Js.assign (do let v ← getProp data "max_drawdown"; plusStr v "%")
          (fun t => store fun d => { d with maxDrawdown := t })
        Js.assign (do let v ← getProp data "risk_reward"; domText v)
          (fun t => store fun d => { d with riskReward := t })
      else pure ())
    (fun error => consoleError "Error updating performance metrics:" error)

/-- Lines 70-72: the call of `updateTradingHistory` up to its first await. -/
def updateTradingHistory.start : Js Unit :=
  fetch "GET" "/api/trading_history" none (.refresh .tradingHistory)

/-- Lines 72-83: `updateTradingHistory` from the moment its request settles. -/
def updateTradingHistory.resume (net : FetchOutcome) : Js Unit := do
  settle (.refresh .tradingHistory)
  Js.tryCatch
    (do
      let data ← awaitJson net
      let status ← Js.eval (getProp data "status")
      if strictEqStr status "success" then do
        assignHistory
          (do let h ← getProp data "history"; arrayMap h "data.history" (fun x => getProp x "date"))
          (fun labels c => { c with labels := labels })
        assignHistory
          (do let h ← getProp data "history"; arrayMap h "data.history" (fun x => getProp x "value"))
          (fun values c => { c with data := values })
        assignHistory (.ok ()) (fun _ c => redraw c)
      else pure ())
    (fun error => consoleError "Error updating trading history:" error)

/-- Lines 86-88: the call of `updateTradeDistribution` up to its first await. -/
def updateTradeDistribution.start : Js Unit :=
  fetch "GET" "/api/trade_distribution" none (.refresh .tradeDistribution)

/-- Lines 88-101: `updateTradeDistribution` from the moment its request settles. -/
def updateTradeDistribution.resume (net : FetchOutcome) : Js Unit := do
  settle (.refresh .tradeDistribution)
  Js.tryCatch
    (do
      let data ← awaitJson net
      let status ← Js.eval (getProp data "status")
      if strictEqStr status "success" then do
        assignDistribution
          (do let a ← getProp data "winning_trades"; let b ← getProp data "losing_trades"; pure [a, b])
          (fun values c => { c with data := values })
        assignDistribution (.ok ()) (fun _ c => redraw c)
      else pure ())
    (fun error => consoleError "Error updating trade distribution:" error)

/-- Lines 111-115: the arrow function handed to `setInterval`. -/
def tick : Js Unit := do
  updatePerformanceMetrics.start
  updateTradingHistory.start
  updateTradeDistribution.start

/-- Lines 104-116: the `DOMContentLoaded` handler. -/
def onLoad : Js Unit := do
  initializeCharts
  updatePerformanceMetrics.start
  updateTradingHistory.start
  updateTradeDistribution.start
  setInterval .analyticsTick 30000

end Analytics

/-! ## `trading.js` -/

namespace Trading

/-- Storing into an element of the trading page. -/
def store (f : TradingDom → TradingDom) (w : World) : World :=
  { w with trading := f w.trading }

/-- Lines 4-28: the chart variable is assigned a fresh chart. -/
def initializeTradingChart : Js Unit :=
  Js.update (store fun d => { d with tradingChart := some ⟨[], [], 0⟩ })

/-- Lines 31-34: looks the element up and does nothing with it. -/
def initializeOrderBook : Js Unit := pure ()

/-- Lines 96-98: the body is empty; the call itself is traced. -/
def showSuccess (message : String) : Js Unit :=
  Js.update fun w => { w with log := w.log ++ [.showSuccess message] }

/-- Lines 101-103: the body is empty; the call itself is traced. -/
def showError (message : JVal) : Js Unit :=
  Js.update fun w => { w with log := w.log ++ [.showError message] }

/-- The template literal of lines 77-88 around its five substitutions. -/
def orderItem (symbol badge side price amount : String) : String :=
  "\n                <div class=\"order-item mb-2 p-2 border rounded\">" ++
  "\n                    <div class=\"d-flex justify-content-between\">" ++
  "\n                        <span>" ++ symbol ++ "</span>" ++
  "\n                        <span class=\"badge " ++ badge ++ "\">" ++ side ++ "</span>" ++
  "\n                    </div>" ++
  "\n                    <div class=\"small text-muted\">" ++
  "\n                        Price: " ++ price ++ "<br>" ++
  "\n                        Amount: " ++ amount ++
  "\n                    </div>" ++
  "\n                </div>" ++
  "\n            "

/-- The arrow function of lines 77-88: the substitutions are evaluated and
converted left to right. -/
def renderOrder (order : JVal) : Except JsError String := do
  let symbol ← getProp order "symbol" >>= toStr
  let sideValue ← getProp order "side"
  let badge := if strictEqStr sideValue "BUY" then "bg-success" else "bg-danger"
  let side ← getProp order "side" >>= toStr
  let price ← getProp order "price" >>= toStr
  let amount ← getProp order "amount" >>= toStr
  pure (orderItem symbol badge side price amount)

/-- Lines 70-72: the call of `updateOpenOrders` up to its first await. -/
def updateOpenOrders.start : Js Unit :=
  fetch "GET" "/api/open_orders" none (.refresh .openOrders)

/-- Lines 72-93: `updateOpenOrders` from the moment its request settles. -/
def updateOpenOrders.resume (net : FetchOutcome) : Js Unit := do
  settle (.refresh .openOrders)
  Js.tryCatch
    (do
      let data ← awaitJson net
      let status ← Js.eval (getProp data "status")
      if strictEqStr status "success" then
        Js.assign
          (do let orders ← getProp data "orders"
              let items ← arrayMap orders "data.orders" renderOrder
              pure (joinEmpty items))
          (fun html => store fun d => { d with openOrders := html })
      else pure ())
    (fun error => consoleError "Error updating open orders:" error)

/-- Line 43: `document.querySelector(...).dataset.side`; the selector matches
nothing when no side button is active. -/
def readSide (d : TradingDom) : Except JsError String :=
  match d.activeSide with
  | none => .error (typeErrorRead "null" "dataset")
  | some side => .ok side

/-- Lines 37-55: the submit handler of the trading form up to its first await.
The form is read outside the `try`. -/
def submit.start : Js Unit := do
  Js.update fun w => { w with log := w.log ++ [.preventDefault] }
  let d ← Js.get fun w => w.trading
  let side ← Js.eval (readSide d)
  fetch "POST" "/api/place_order"
    (some (.obj [("symbol", .str d.symbol), ("orderType", .str d.orderType),
      ("side", .str side), ("amount", .str d.amount), ("price", .str d.price)]))
    .placeOrder

/-- Lines 55-67: the submit handler from the moment its request settles. -/
def submit.resume (net : FetchOutcome) : Js Unit := do
  settle .placeOrder
  Js.tryCatch
    (do
      let data ← awaitJson net
      let status ← Js.eval (getProp data "status")
      if strictEqStr status "success" then do
        showSuccess "Order placed successfully"
        updateOpenOrders.start
      else do
        let message ← Js.eval (getProp data "message")
        showError (orElse message (.str "Failed to place order")))
    (fun error => showError (.str ("Error placing order: " ++ error.message)))

/-- Lines 106-113: the `DOMContentLoaded` handler. -/
def onLoad : Js Unit := do
  initializeTradingChart
  initializeOrderBook
  updateOpenOrders.start
  setInterval .updateOpenOrders 5000

end Trading

/-! ## `settings.js` -/

namespace Settings

/-- Storing into a field of the settings page. -/
def store (f : SettingsDom → SettingsDom) (w : World) : World :=
  { w with settings := f w.settings }

/-- The call `alert(message)`: the message is converted to a string. -/
def alert (message : JVal) : Js Unit :=
  Js.assign (toStr message) (fun text w => { w with log := w.log ++ [.alert text] })

/-- Lines 155-158. -/
def showSuccess (message : String) : Js Unit := do
  Js.update fun w => { w with log := w.log ++ [.showSuccess message] }
  alert (.str message)

/-- Lines 161-164. -/
def showError (message : JVal) : Js Unit := do
  Js.update fun w => { w with log := w.log ++ [.showError message] }
  alert message

/-- The endpoint each form posts to. -/
def url : SettingsForm → String
  | .api => "/api/settings/api"
  | .trading => "/api/settings/trading"
  | .notifications => "/api/settings/notifications"
  | .risk => "/api/settings/risk"

/-- The object literal `formData` of each handler. -/
def formData (d : SettingsDom) : SettingsForm → JVal
  | .api => .obj [("api_key", .str d.apiKey), ("api_secret", .str d.apiSecret)]
  | .trading => .obj [("trading_pair", .str d.tradingPair), ("position_size", .str d.positionSize),
      ("stop_loss", .str d.stopLoss), ("take_profit", .str d.takeProfit)]
  | .notifications => .obj [("email_notifications", .bool d.emailNotifications),
      ("trade_notifications", .bool d.tradeNotifications),
      ("error_notifications", .bool d.errorNotifications)]
  | .risk => .obj [("max_daily_loss", .str d.maxDailyLoss), ("max_positions", .str d.maxPositions),
      ("leverage", .str d.leverage)]

/-- The text each handler passes to `showSuccess`. -/
def savedText : SettingsForm → String
  | .api => "API settings saved successfully"
  | .trading => "Trading settings saved successfully"
  | .notifications => "Notification settings saved successfully"
  | .risk => "Risk settings saved successfully"

/-- The text each handler falls back to when the response has no message. -/
def failedText : SettingsForm → String
  | .api => "Failed to save API settings"
  | .trading => "Failed to save trading settings"
  | .notifications => "Failed to save notification settings"
  | .risk => "Failed to save risk settings"

/-- The text each handler puts before the message of a caught error. -/
def errorLead : SettingsForm → String
  | .api => "Error saving API settings: "
  | .trading => "Error saving trading settings: "
  | .notifications => "Error saving notification settings: "
  | .risk => "Error saving risk settings: "

/-- Lines 2-17, 31-48, 62-78, 92-108: a submit handler up to its first await. -/
def submit.start (form : SettingsForm) : Js Unit := do
  Js.update fun w => { w with log := w.log ++ [.preventDefault] }
  let d ← Js.get fun w => w.settings
  fetch "POST" (url form) (some (formData d form)) (.saveSettings form)

/-- Lines 19-28, 50-59, 80-89, 110-119: a submit handler from the moment its
request settles. -/
def submit.resume (form : SettingsForm) (net : FetchOutcome) : Js Unit := do
  settle (.saveSettings form)
  Js.tryCatch
    (do
      let data ← awaitJson net
      let status ← Js.eval (getProp data "status")
      if strictEqStr status "success" then
        showSuccess (savedText form)
      else do
        let message ← Js.eval (getProp data "message")
        showError (orElse message (.str (failedText form))))
    (fun error => showError (.str (errorLead form ++ error.message)))

/-- A default-valued read `data.key || fallback` stored into the `value` of a
form control. -/
def assignValue (data : JVal) (key : String) (fallback : JVal)
    (put : String → SettingsDom → SettingsDom) : Js Unit :=
  Js.assign (do let v ← getProp data key; domValue (orElse v fallback))
    (fun text => store (put text))

/-- A default-valued read `data.key || false` stored into the `checked` of a
checkbox. -/
def assignChecked (data : JVal) (key : String)
    (put : Bool → SettingsDom → SettingsDom) : Js Unit :=
  Js.assign (do let v ← getProp data key; pure (truthy (orElse v (.bool false))))
    (fun b => store (put b))

/-- Lines 122-124: the call of `loadSettings` up to its first await. -/
def loadSettings.start : Js Unit :=
  fetch "GET" "/api/settings" none .loadSettings

/-- Lines 124-152: `loadSettings` from the moment its request settles. -/
def loadSettings.resume (net : FetchOutcome) : Js Unit := do
  settle .loadSettings
  Js.tryCatch
    (do
      let data ← awaitJson net
      let status ← Js.eval (getProp data "status")
      if strictEqStr status "success" then do
        assignValue data "api_key" (.str "") (fun t d => { d with apiKey := t })
        assignValue data "api_secret" (.str "") (fun t d => { d with apiSecret := t })
        assignValue data "trading_pair" (.str "BTCUSDT") (fun t d => { d with tradingPair := t })
        assignValue data "position_size" (.num "10") (fun t d => { d with positionSize := t })
        assignValue data "stop_loss" (.num "2") (fun t d => { d with stopLoss := t })
        assignValue data "take_profit" (.num "4") (fun t d => { d with takeProfit := t })
        assignChecked data "email_notifications" (fun b d => { d with emailNotifications := b })
        assignChecked data "trade_notifications" (fun b d => { d with tradeNotifications := b })
        assignChecked data "error_notifications" (fun b d => { d with errorNotifications := b })
        assignValue data "max_daily_loss" (.num "5") (fun t d => { d with maxDailyLoss := t })
        assignValue data "max_positions" (.num "3") (fun t d => { d with maxPositions := t })
        assignValue data "leverage" (.num "1") (fun t d => { d with leverage := t })
      else pure ())
    (fun error => do
      consoleError "Error loading settings:" error
      showError (.str ("Error loading settings: " ++ error.message)))

/-- Lines 167-169: the `DOMContentLoaded` handler. -/
def onLoad : Js Unit := loadSettings.start

end Settings

/-! ## The event loop -/

/-- The call of a refresh function up to its first await. -/
def start : Feed → Js Unit
  | .performanceMetrics => Analytics.updatePerformanceMetrics.start
  | .tradingHistory => Analytics.updateTradingHistory.start
  | .tradeDistribution => Analytics.updateTradeDistribution.start
  | .openOrders => Trading.updateOpenOrders.start

/-- The continuation of a suspended function once its request has settled. -/
def resume : Pending → FetchOutcome → Js Unit
  | .refresh .performanceMetrics, net => Analytics.updatePerformanceMetrics.resume net
  | .refresh .tradingHistory, net => Analytics.updateTradingHistory.resume net
  | .refresh .tradeDistribution, net => Analytics.updateTradeDistribution.resume net
  | .refresh .openOrders, net => Trading.updateOpenOrders.resume net
  | .placeOrder, net => Trading.submit.resume net
  | .saveSettings form, net => Settings.submit.resume form net
  | .loadSettings, net => Settings.loadSettings.resume net

/-- One refresh of a feed from call to completion, its request settling with
`net`. -/
def refresh (feed : Feed) (net : FetchOutcome) : Js Unit := do
  start feed
  resume (.refresh feed) net

/-- The code behind a registered timer. -/
def runCallback : Callback → Js Unit
  | .analyticsTick => Analytics.tick
  | .updateOpenOrders => Trading.updateOpenOrders.start

/-- What the browser can deliver to the scripts. -/
inductive Event where
  | analyticsLoaded
  | tradingLoaded
  | settingsLoaded
  | timer (index : Nat)
  | orderSubmitted
  | settingsSubmitted (form : SettingsForm)
  | settled (who : Pending) (net : FetchOutcome)

/-- One turn of the event loop.  An error that escapes a handler is reported by
the browser and the page goes on from the state reached. -/
def step (w : World) : Event → World
  | .analyticsLoaded => (Analytics.onLoad w).2
  | .tradingLoaded => (Trading.onLoad w).2
  | .settingsLoaded => (Settings.onLoad w).2
  | .timer index =>
    match w.timers[index]? with
    | some (_, callback) => (runCallback callback w).2
    | none => w
  | .orderSubmitted => (Trading.submit.start w).2
  | .settingsSubmitted form => (Settings.submit.start form w).2
  | .settled who net => if who ∈ w.inFlight then (resume who net w).2 else w

/-- A sequence of turns. -/
def run (w : World) (events : List Event) : World :=
  events.foldl step w

/-- The requests of `who` in flight. -/
def inFlightCount (who : Pending) (w : World) : Nat :=
  w.inFlight.count who

/-- The endpoint of each feed. -/
def feedUrl : Feed → String
  | .performanceMetrics => "/api/performance_metrics"
  | .tradingHistory => "/api/trading_history"
  | .tradeDistribution => "/api/trade_distribution"
  | .openOrders => "/api/open_orders"

/-- Whether an effect is a request to `url`. -/
def isFetchOf (url : String) : Effect → Bool
  | .fetch _ u _ => u == url
  | _ => false

/-- How many requests to `url` a trace holds. -/
def fetchCount (url : String) (log : List Effect) : Nat :=
  (log.filter (isFetchOf url)).length

/-- The three pages before any script has run: empty elements, chart variables
still undefined, nothing traced, nothing in flight, no timer. -/
def blank : World :=
  { analytics := ⟨"", "", "", "", "", "", none, none⟩
    trading := ⟨none, "", "", "", "", "", none⟩
    settings := ⟨"", "", "", "", "", "", false, false, false, "", "", ""⟩
    log := []
    inFlight := []
    timers := [] }

/-- The `status` a settled request reports in its body; `undefined` when the
fetch was rejected or the body did not parse. -/
def bodyStatus : FetchOutcome → JVal
  | .ok ⟨_, .ok data⟩ => propOf data "status"
  | _ => .undefined

/-- One order submission from the submit event to the end of the handler, the
request, if one is issued, settling with `net`. -/
def Trading.submit (net : FetchOutcome) : Js Unit := do
  Trading.submit.start
  Trading.submit.resume net

/-- One settings submission from the submit event to the end of the handler. -/
def Settings.submit (form : SettingsForm) (net : FetchOutcome) : Js Unit := do
  Settings.submit.start form
  Settings.submit.resume form net

/-- One run of `loadSettings` from call to completion. -/
def Settings.loadSettings (net : FetchOutcome) : Js Unit := do
  Settings.loadSettings.start
  Settings.loadSettings.resume net

/-- The messages handed to `showError`, in order. -/
def reported : List Effect → List JVal
  | [] => []
  | .showError message :: rest => message :: reported rest
  | _ :: rest => reported rest

/-- The texts shown by `alert`, in order. -/
def alerts : List Effect → List String
  | [] => []
  | .alert text :: rest => text :: alerts rest
  | _ :: rest => alerts rest

mutual
/-- Whether `ToString` succeeds on a value: no object with an own `toString`
entry is reached through arrays. -/
def printable : JVal → Bool
  | .arr [] => true
  | .arr (x :: rest) => printable x && printableAll rest
  | .obj fields => !fields.any (fun kv => kv.1 == "toString")
  | _ => true
/-- Whether every element of a list is printable. -/
def printableAll : List JVal → Bool
  | [] => true
  | x :: rest => printable x && printableAll rest
end

/-- The string `ToString` gives, the empty string where it throws. -/
def textOf (v : JVal) : String :=
  match toStr v with
  | .ok s => s
  | .error _ => ""

/-- An entry of `orders` the template can render: not `null` or `undefined`,
and its four displayed properties convert to strings. -/
def renderable (order : JVal) : Bool :=
  match order with
  | .undefined => false
  | .null => false
  | o => printable (propOf o "symbol") && printable (propOf o "side") &&
      printable (propOf o "price") && printable (propOf o "amount")

/-- The item shown for one order: the template filled with the symbol, side, price and
amount of the order, the badge green exactly for the side `BUY`. -/
def orderHtml (order : JVal) : String :=
  Trading.orderItem (textOf (propOf order "symbol"))
    (if strictEqStr (propOf order "side") "BUY" then "bg-success" else "bg-danger")
    (textOf (propOf order "side")) (textOf (propOf order "price"))
    (textOf (propOf order "amount"))

/-- A function applied `n` times. -/
def times {α : Type} (f : α → α) : Nat → α → α
  | 0, a => a
  | n + 1, a => times f n (f a)

/-- The page after `t` milliseconds in which nothing but the timers ran: a
timer registered with interval `ms` has fired `t / ms` times. -/
def elapse (t : Nat) (w : World) : World :=
  w.timers.foldl (fun acc timer => times (fun x => (runCallback timer.2 x).2) (t / timer.1) acc) w

/-- The message a submit handler passes to `showError` when the request settles
with `net` without a success status: the text `lead` and the message of the
error caught, or else the message of the body, or else the text `failed`. -/
def failureReport (lead failed : String) : FetchOutcome → JVal
  | .error e => .str (lead ++ e.message)
  | .ok ⟨_, .error e⟩ => .str (lead ++ e.message)
  | .ok ⟨_, .ok data⟩ =>
    match getProp data "status" with
    | .error e => .str (lead ++ e.message)
    | .ok _ => orElse (propOf data "message") (.str failed)

/-- An order as the interface describes it. -/
def sampleOrder : JVal :=
  .obj [("symbol", .str "BTCUSDT"), ("side", .str "BUY"), ("price", .str "30000"),
    ("amount", .str "0.1")]

/-- The trading page with the form filled in and the side button `BUY` active. -/
def orderPage : World :=
  { blank with trading := ⟨none, "", "BTCUSDT", "limit", "0.1", "30000", some "BUY"⟩ }

/-- A response with HTTP status 200 and the given parsed body. -/
def okResponse (data : JVal) : FetchOutcome :=
  .ok ⟨200, .ok data⟩

/-- The five mutations: placing an order and saving one of the settings forms. -/
inductive Mutation where
  | placeOrder
  | save (form : SettingsForm)
deriving DecidableEq, Repr

/-- One mutation from the submit event to the end of its handler. -/
def Mutation.run : Mutation → FetchOutcome → Js Unit
  | .placeOrder, net => Trading.submit net
  | .save form, net => Settings.submit form net

/-- The text a handler reports when the response carries no message. -/
def Mutation.failedText : Mutation → String
  | .placeOrder => "Failed to place order"
  | .save form => Settings.failedText form

/-- The text a handler puts before the message of a caught error. -/
def Mutation.errorLead : Mutation → String
  | .placeOrder => "Error placing order: "
  | .save form => Settings.errorLead form

/-- Whether the handler gets as far as issuing its request: the trading form
needs an active side button. -/
def Mutation.ready (w : World) : Mutation → Prop
  | .placeOrder => w.trading.activeSide ≠ none
  | .save _ => True

/-- The text an element shows after `textContent = v`: nothing for `null` and
`undefined`, the string of `v` otherwise. -/
def plainText (v : JVal) : String :=
  match v with
  | .undefined => ""
  | .null => ""
  | w => textOf w

/-- The trading page showing an item from an earlier refresh. -/
def stalePage : World :=
  { blank with trading := ⟨none, "<div>old</div>", "", "", "", "", none⟩ }

/-- The analytics page right after `initializeCharts`. -/
def chartsPage : World :=
  (Analytics.initializeCharts blank).2

/-- The six properties shown by `updatePerformanceMetrics`. -/
def metricKeys : List String :=
  ["total_return", "win_rate", "avg_trade", "sharpe_ratio", "max_drawdown", "risk_reward"]

/-- A sequence of refreshes of the trading history, each run to completion with
its own outcome. -/
def refreshHistoryAll (nets : List FetchOutcome) (w : World) : World :=
  nets.foldl (fun acc net => (refresh .tradingHistory net acc).2) w

/-- The trading-history chart, once created, has as many labels as values. -/
def chartBalanced (w : World) : Prop :=
  ∀ c, w.analytics.tradingHistoryChart = some c → c.labels.length = c.data.length

/-- What a form control shows after `value = v || fallback`, the fallback given
by its text: the string of `v` when `v` is truthy, the fallback otherwise. -/
def shownValue (v : JVal) (fallback : String) : String :=
  if truthy v then textOf v else fallback

/-- The nine settings stored into the `value` of a form control. -/
def valueKeys : List String :=
  ["api_key", "api_secret", "trading_pair", "position_size", "stop_loss", "take_profit",
    "max_daily_loss", "max_positions", "leverage"]

/-- A settings response in which the server supplies every setting, the stop
loss being 0. -/
def zeroStopSettings : JVal :=
  .obj [("status", .str "success"), ("api_key", .str "key"), ("api_secret", .str "secret"),
    ("trading_pair", .str "ETHUSDT"), ("position_size", .num "25"), ("stop_loss", .num "0"),
    ("take_profit", .num "8"), ("email_notifications", .bool true),
    ("trade_notifications", .bool false), ("error_notifications", .bool true),
    ("max_daily_loss", .num "7"), ("max_positions", .num "4"), ("leverage", .num "2")]

/-- Running `m` never changes the part `proj` of the world, whether `m`
completes or throws. -/
structure Js.Keeps {α β : Type} (proj : World → β) (m : Js α) : Prop where
  same : ∀ w, proj (m w).2 = proj w

/-! ## Language lemmas -/

theorem strictEqStr_eq_true (v : JVal) (lit : String) :
    strictEqStr v lit = true ↔ v = .str lit := by
  cases v <;> simp [strictEqStr]

theorem getProp_ok_or_error (v : JVal) (key : String) :
    getProp v key = .ok (propOf v key) ∨ ∃ e, getProp v key = .error e := by
  cases v <;> simp [getProp]

theorem propOf_of_getProp_error {v : JVal} {key : String} {e : JsError}
    (h : getProp v key = .error e) : propOf v key = .undefined := by
  cases v <;> simp_all [getProp, propOf]

theorem itemStr_ok {v : JVal} {conv : Except JsError String} (h : ∃ s, conv = .ok s) :
    ∃ s, itemStr v conv = .ok s := by
  cases v <;> simp [itemStr, h]

theorem catStr_ok {a b : Except JsError String} (ha : ∃ s, a = .ok s) (hb : ∃ s, b = .ok s) :
    ∃ s, catStr a b = .ok s := by
  obtain ⟨x, rfl⟩ := ha
  obtain ⟨y, rfl⟩ := hb
  exact ⟨x ++ y, rfl⟩

mutual
theorem toStr_ok_of_printable : ∀ (v : JVal), printable v = true → ∃ s, toStr v = .ok s
  | .undefined, _ => ⟨_, rfl⟩
  | .null, _ => ⟨_, rfl⟩
  | .bool true, _ => ⟨_, rfl⟩
  | .bool false, _ => ⟨_, rfl⟩
  | .num _, _ => ⟨_, rfl⟩
  | .str _, _ => ⟨_, rfl⟩
  | .arr [], _ => ⟨_, rfl⟩
  | .arr (x :: rest), h => by
    simp only [printable, Bool.and_eq_true] at h
    simp only [toStr]
    exact catStr_ok (itemStr_ok (toStr_ok_of_printable x h.1)) (joinRest_ok_of_printable rest h.2)
  | .obj fields, h => by
    simp only [printable, Bool.not_eq_true'] at h
    exact ⟨"[object Object]", by simp [toStr, h]⟩
theorem joinRest_ok_of_printable : ∀ (xs : List JVal), printableAll xs = true →
    ∃ s, joinRest xs = .ok s
  | [], _ => ⟨_, rfl⟩
  | x :: rest, h => by
    simp only [printableAll, Bool.and_eq_true] at h
    simp only [joinRest]
    exact catStr_ok (catStr_ok ⟨_, rfl⟩ (itemStr_ok (toStr_ok_of_printable x h.1)))
      (joinRest_ok_of_printable rest h.2)
end

theorem toStr_of_printable {v : JVal} (h : printable v = true) : toStr v = .ok (textOf v) := by
  obtain ⟨s, hs⟩ := toStr_ok_of_printable v h
  simp [textOf, hs]

/-! ## C1 -/

theorem strictEqStr_false_of_ne {v : JVal} {lit : String} (h : v ≠ .str lit) :
    strictEqStr v lit = false := by
  rw [Bool.eq_false_iff, Ne, strictEqStr_eq_true]; exact h

/-- A response whose body lacks the success status leaves all three pages as
they were, whichever refresh function receives it. -/
theorem resume_failure_pages (feed : Feed) (w : World) (code : Nat) (data : JVal)
    (h : propOf data "status" ≠ .str "success") :
    (resume (.refresh feed) (.ok ⟨code, .ok data⟩) w).2.analytics = w.analytics ∧
    (resume (.refresh feed) (.ok ⟨code, .ok data⟩) w).2.trading = w.trading ∧
    (resume (.refresh feed) (.ok ⟨code, .ok data⟩) w).2.settings = w.settings := by
  have hs := strictEqStr_false_of_ne h
  rcases getProp_ok_or_error data "status" with hg | ⟨e0, hg⟩ <;> cases feed <;>
    simp [resume, Analytics.updatePerformanceMetrics.resume, Analytics.updateTradingHistory.resume,
      Analytics.updateTradeDistribution.resume, Trading.updateOpenOrders.resume,
      bind, Js.seq, Js.tryCatch, awaitJson, Js.eval, settle, Js.update, hg, hs, pure, Js.ret,
      consoleError]

/-- Calling a refresh function touches no page: it only issues the request. -/
theorem start_pages (feed : Feed) (w : World) :
    (start feed w).1 = .ok () ∧
    (start feed w).2.analytics = w.analytics ∧
    (start feed w).2.trading = w.trading ∧
    (start feed w).2.settings = w.settings ∧
    (start feed w).2.timers = w.timers := by
  cases feed <;>
    simp [start, Analytics.updatePerformanceMetrics.start, Analytics.updateTradingHistory.start,
      Analytics.updateTradeDistribution.start, Trading.updateOpenOrders.start, fetch, Js.update]

theorem refresh_eq (feed : Feed) (net : FetchOutcome) (w : World) :
    refresh feed net w = resume (.refresh feed) net (start feed w).2 := by
  have h := (start_pages feed w).1
  simp only [refresh, bind, Js.seq]
  split
  · next a w1 heq => rw [heq]
  · next e w1 heq => rw [heq] at h; cases h

theorem refresh_failure_pages (feed : Feed) (w : World) (code : Nat) (data : JVal)
    (h : propOf data "status" ≠ .str "success") :
    (refresh feed (.ok ⟨code, .ok data⟩) w).2.analytics = w.analytics ∧
    (refresh feed (.ok ⟨code, .ok data⟩) w).2.trading = w.trading := by
  have hr := resume_failure_pages feed (start feed w).2 code data h
  have hs := start_pages feed w
  rw [refresh_eq]
  exact ⟨hr.1.trans hs.2.1, hr.2.1.trans hs.2.2.1⟩

/-- C1: for each of the four feed refresh operations and every state before the
call, a response whose body has a `status` other than the string `"success"`
(a missing status included) leaves the displayed state of the analytics page
and of the trading page, hence of that feed, exactly as it was. -/
theorem C1_non_success_keeps_display (feed : Feed) (w : World) (code : Nat) (data : JVal)
    (h : propOf data "status" ≠ .str "success") :
    (refresh feed (.ok ⟨code, .ok data⟩) w).2.analytics = w.analytics ∧
    (refresh feed (.ok ⟨code, .ok data⟩) w).2.trading = w.trading :=
  refresh_failure_pages feed w code data h

/-- C1, witness: the open orders on the blank page, response `{status: "error"}`. -/
theorem C1_non_success_keeps_display_witness :
    propOf (.obj [("status", .str "error")]) "status" ≠ .str "success" ∧
    (refresh .openOrders (.ok ⟨200, .ok (.obj [("status", .str "error")])⟩) blank).2.analytics
      = blank.analytics ∧
    (refresh .openOrders (.ok ⟨200, .ok (.obj [("status", .str "error")])⟩) blank).2.trading
      = blank.trading :=
  ⟨by simp [propOf, ownProp],
    C1_non_success_keeps_display .openOrders blank 200 (.obj [("status", .str "error")])
      (by simp [propOf, ownProp])⟩

/-! ## Frame lemmas

`Js.Keeps proj m` says that running `m` leaves the part `proj` of the world as
it was, whether `m` completes or throws. -/

namespace Js

variable {α γ β : Type} {proj : World → β}

theorem keeps_pure (a : α) : Keeps proj (pure a : Js α) := ⟨fun _ => rfl⟩

theorem keeps_eval (x : Except JsError α) : Keeps proj (eval x) := ⟨fun _ => rfl⟩

theorem keeps_get {f : World → α} : Keeps proj (get f) := ⟨fun _ => rfl⟩

theorem keeps_bind {m : Js α} {f : α → Js γ} (hm : Keeps proj m) (hf : ∀ a, Keeps proj (f a)) :
    Keeps proj (m >>= f) := by
  constructor
  intro w
  show proj (seq m f w).2 = proj w
  unfold seq
  split
  · next a w1 heq => rw [(hf a).same w1, ← hm.same w, heq]
  · next e w1 heq => rw [← hm.same w, heq]

theorem keeps_tryCatch {body : Js Unit} {handler : JsError → Js Unit} (hb : Keeps proj body)
    (hh : ∀ e, Keeps proj (handler e)) : Keeps proj (tryCatch body handler) := by
  constructor
  intro w
  unfold tryCatch
  split
  · next a w1 heq => rw [← hb.same w, heq]
  · next e w1 heq => rw [(hh e).same w1, ← hb.same w, heq]

theorem keeps_update {f : World → World} (h : ∀ w, proj (f w) = proj w) :
    Keeps proj (update f) := ⟨fun w => h w⟩

theorem keeps_assign {rhs : Except JsError α} {store : α → World → World}
    (h : ∀ a w, proj (store a w) = proj w) : Keeps proj (assign rhs store) := by
  constructor
  intro w
  unfold assign
  split
  · rfl
  · exact h _ w

theorem keeps_ite {c : Prop} [Decidable c] {m n : Js α} (hm : Keeps proj m) (hn : Keeps proj n) :
    Keeps proj (if c then m else n) := by
  split
  · exact hm
  · exact hn

end Js

theorem keeps_awaitJson {β : Type} {proj : World → β} (net : FetchOutcome) :
    Js.Keeps proj (awaitJson net) := by
  constructor
  intro w
  unfold awaitJson
  split <;> rfl

theorem Analytics.keeps_assignHistory {α β : Type} {proj : World → β}
    {rhs : Except JsError α} {put : α → Chart → Chart}
    (h : ∀ c w, proj (Analytics.store (fun d => { d with tradingHistoryChart := c }) w) = proj w) :
    Js.Keeps proj (Analytics.assignHistory rhs put) := by
  constructor
  intro w
  unfold Analytics.assignHistory
  split
  · rfl
  · exact (Js.keeps_assign (fun a w => h _ w)).same w

theorem Analytics.keeps_assignDistribution {α β : Type} {proj : World → β}
    {rhs : Except JsError α} {put : α → Chart → Chart}
    (h : ∀ c w, proj (Analytics.store (fun d => { d with tradeDistributionChart := c }) w) = proj w) :
    Js.Keeps proj (Analytics.assignDistribution rhs put) := by
  constructor
  intro w
  unfold Analytics.assignDistribution
  split
  · rfl
  · exact (Js.keeps_assign (fun a w => h _ w)).same w

/-- No refresh continuation touches the timers. -/
theorem resume_refresh_timers (feed : Feed) (net : FetchOutcome) :
    Js.Keeps (fun w => w.timers) (resume (.refresh feed) net) := by
  cases feed <;>
    simp only [resume, Analytics.updatePerformanceMetrics.resume,
      Analytics.updateTradingHistory.resume, Analytics.updateTradeDistribution.resume,
      Trading.updateOpenOrders.resume, settle, consoleError] <;>
    repeat (first
      | intro _
      | rfl
      | apply Js.keeps_bind
      | apply Js.keeps_tryCatch
      | apply Js.keeps_pure
      | apply Js.keeps_eval
      | apply Js.keeps_ite
      | apply keeps_awaitJson
      | apply Js.keeps_assign
      | apply Js.keeps_update
      | apply Analytics.keeps_assignHistory
      | apply Analytics.keeps_assignDistribution)

/-! ## C6 -/

theorem tryCatch_console_ok (body : Js Unit) (label : String) (w : World) :
    (Js.tryCatch body (fun error => consoleError label error) w).1 = .ok () := by
  unfold Js.tryCatch
  split <;> rfl

/-- A refresh continuation never throws: its whole body sits in a `try` whose
handler only logs. -/
theorem resume_refresh_ok (feed : Feed) (net : FetchOutcome) (w : World) :
    (resume (.refresh feed) net w).1 = .ok () := by
  cases feed <;>
    simp only [resume, Analytics.updatePerformanceMetrics.resume,
      Analytics.updateTradingHistory.resume, Analytics.updateTradeDistribution.resume,
      Trading.updateOpenOrders.resume, bind, Js.seq, settle, Js.update] <;>
    exact tryCatch_console_ok _ _ _

/-- A rejected fetch or an unparseable body leaves all three pages as they were. -/
theorem resume_transport_pages (feed : Feed) (w : World) (net : FetchOutcome)
    (h : (∃ e, net = .error e) ∨ (∃ code e, net = .ok ⟨code, .error e⟩)) :
    (resume (.refresh feed) net w).2.analytics = w.analytics ∧
    (resume (.refresh feed) net w).2.trading = w.trading := by
  rcases h with ⟨e, rfl⟩ | ⟨code, e, rfl⟩ <;> cases feed <;>
    simp [resume, Analytics.updatePerformanceMetrics.resume, Analytics.updateTradingHistory.resume,
      Analytics.updateTradeDistribution.resume, Trading.updateOpenOrders.resume,
      bind, Js.seq, Js.tryCatch, awaitJson, Js.eval, settle, Js.update, consoleError]

theorem orderItem_ne_empty (symbol badge side price amount : String) :
    Trading.orderItem symbol badge side price amount ≠ "" := by
  intro h
  have h2 := congrArg String.length h
  simp [Trading.orderItem] at h2
  exact absurd h2.2 (by decide)

set_option maxRecDepth 100000 in
/-- C6, as stated, fails: a response with HTTP status 500 whose body parses and
carries `status: "success"` is treated like any other success, and the refresh
of the open orders replaces the (empty) display. -/
theorem C6_non_2xx_changes_display :
    (refresh .openOrders
        (.ok ⟨500, .ok (.obj [("status", .str "success"), ("orders", .arr [sampleOrder])])⟩)
        blank).2.trading.openOrders
      = orderHtml sampleOrder ∧
    orderHtml sampleOrder ≠ blank.trading.openOrders := by
  constructor
  · rfl
  · exact orderItem_ne_empty _ _ _ _ _

/-- C6, amended: a refresh never throws or rejects to its caller, whatever the
request settles with, and never touches the timers; when the fetch rejects or
the body does not parse, it leaves the display of every feed unchanged.  (The
HTTP status code is never read.) -/
theorem C6_transport_failure_isolated (feed : Feed) (w : World) :
    (∀ net, (refresh feed net w).1 = .ok () ∧ (refresh feed net w).2.timers = w.timers) ∧
    (∀ e, (refresh feed (.error e) w).2.analytics = w.analytics ∧
      (refresh feed (.error e) w).2.trading = w.trading) ∧
    (∀ code e, (refresh feed (.ok ⟨code, .error e⟩) w).2.analytics = w.analytics ∧
      (refresh feed (.ok ⟨code, .error e⟩) w).2.trading = w.trading) := by
  have hs := start_pages feed w
  refine ⟨fun net => ?_, fun e => ?_, fun code e => ?_⟩
  · rw [refresh_eq]
    exact ⟨resume_refresh_ok feed net _, ((resume_refresh_timers feed net).same _).trans hs.2.2.2.2⟩
  · rw [refresh_eq]
    have h := resume_transport_pages feed (start feed w).2 (.error e) (Or.inl ⟨e, rfl⟩)
    exact ⟨h.1.trans hs.2.1, h.2.trans hs.2.2.1⟩
  · rw [refresh_eq]
    have h := resume_transport_pages feed (start feed w).2 (.ok ⟨code, .error e⟩)
      (Or.inr ⟨code, e, rfl⟩)
    exact ⟨h.1.trans hs.2.1, h.2.trans hs.2.2.1⟩

/-! ## C2 -/

theorem getProp_of_status_ok {data : JVal} {key : String}
    (h : getProp data "status" = .ok (propOf data "status")) :
    getProp data key = .ok (propOf data key) := by
  cases data <;> simp_all [getProp]

theorem getProp_status_of_success {data : JVal} (hs : propOf data "status" = .str "success") :
    getProp data "status" = .ok (.str "success") := by
  rcases getProp_ok_or_error data "status" with hg | ⟨e0, hg⟩
  · rw [hg, hs]
  · rw [propOf_of_getProp_error hg] at hs; cases hs

/-- What the submit handler of the trading form does once its request settles:
on a body with status `success` one call of `showSuccess` and one request for
the open orders; otherwise one call of `showError`; the pages stay as they are. -/
theorem Trading.submit_resume_cases (w : World) (net : FetchOutcome) :
    (bodyStatus net = .str "success" ∧
      (Trading.submit.resume net w).2 =
        { w with
          log := w.log ++ [.showSuccess "Order placed successfully"] ++
            [.fetch "GET" "/api/open_orders" none]
          inFlight := w.inFlight.erase .placeOrder ++ [.refresh .openOrders] }) ∨
    (bodyStatus net ≠ .str "success" ∧
      (Trading.submit.resume net w).2 =
        { w with
          log := w.log ++
            [.showError (failureReport "Error placing order: " "Failed to place order" net)]
          inFlight := w.inFlight.erase .placeOrder }) := by
  rcases net with e | ⟨code, e | data⟩
  · right
    refine ⟨by simp [bodyStatus], ?_⟩
    simp [Trading.submit.resume, bind, Js.seq, Js.tryCatch, awaitJson, Js.eval, settle, Js.update,
      Trading.showError, failureReport]
  · right
    refine ⟨by simp [bodyStatus], ?_⟩
    simp [Trading.submit.resume, bind, Js.seq, Js.tryCatch, awaitJson, Js.eval, settle, Js.update,
      Trading.showError, failureReport]
  · by_cases hs : propOf data "status" = .str "success"
    · left
      refine ⟨hs, ?_⟩
      have hg := getProp_status_of_success hs
      simp [Trading.submit.resume, bind, Js.seq, Js.tryCatch, awaitJson, Js.eval, settle, Js.update,
        Trading.showSuccess, Trading.updateOpenOrders.start, fetch, hg, strictEqStr]
    · right
      refine ⟨hs, ?_⟩
      have hf := strictEqStr_false_of_ne hs
      rcases getProp_ok_or_error data "status" with hg | ⟨e0, hg⟩
      · have hm : getProp data "message" = .ok (propOf data "message") := getProp_of_status_ok hg
        simp [Trading.submit.resume, bind, Js.seq, Js.tryCatch, awaitJson, Js.eval, settle,
          Js.update, Trading.showError, hg, hf, hm, failureReport]
      · simp [Trading.submit.resume, bind, Js.seq, Js.tryCatch, awaitJson, Js.eval, settle,
          Js.update, Trading.showError, hg, failureReport]

theorem Trading.submit_start_some (w : World) (side : String)
    (h : w.trading.activeSide = some side) :
    Trading.submit.start w = (.ok (),
      { w with
        log := w.log ++ [.preventDefault] ++
          [.fetch "POST" "/api/place_order"
            (some (.obj [("symbol", .str w.trading.symbol), ("orderType", .str w.trading.orderType),
              ("side", .str side), ("amount", .str w.trading.amount),
              ("price", .str w.trading.price)]))]
        inFlight := w.inFlight ++ [.placeOrder] }) := by
  simp [Trading.submit.start, bind, Js.seq, Js.update, Js.get, Js.eval, Trading.readSide, h, fetch]

theorem Trading.submit_start_none (w : World) (h : w.trading.activeSide = none) :
    Trading.submit.start w =
      (.error (typeErrorRead "null" "dataset"), { w with log := w.log ++ [.preventDefault] }) := by
  simp [Trading.submit.start, bind, Js.seq, Js.update, Js.get, Js.eval, Trading.readSide, h]

/-- C2: an order submission starts the refresh of the open orders if and only
if a request was issued and its response body reports status `success`; then
exactly one request for the open orders is issued (and is in flight when the
handler ends); otherwise (another status, a rejected fetch, an unparseable
body, or no request at all) none is issued and no page element changes. -/
theorem C2_refresh_iff_success (w : World) (net : FetchOutcome) :
    ((w.trading.activeSide ≠ none ∧ bodyStatus net = .str "success") →
      fetchCount "/api/open_orders" (Trading.submit net w).2.log
        = fetchCount "/api/open_orders" w.log + 1 ∧
      inFlightCount (.refresh .openOrders) (Trading.submit net w).2
        = inFlightCount (.refresh .openOrders) w + 1) ∧
    (¬ (w.trading.activeSide ≠ none ∧ bodyStatus net = .str "success") →
      fetchCount "/api/open_orders" (Trading.submit net w).2.log
        = fetchCount "/api/open_orders" w.log ∧
      inFlightCount (.refresh .openOrders) (Trading.submit net w).2
        = inFlightCount (.refresh .openOrders) w ∧
      (Trading.submit net w).2.analytics = w.analytics ∧
      (Trading.submit net w).2.trading = w.trading) := by
  cases hside : w.trading.activeSide with
  | none =>
    have h0 := Trading.submit_start_none w hside
    have hrun : (Trading.submit net w).2 = { w with log := w.log ++ [.preventDefault] } := by
      simp [Trading.submit, bind, Js.seq, h0]
    refine ⟨fun h => absurd rfl h.1, fun _ => ?_⟩
    rw [hrun]
    simp [fetchCount, List.filter, isFetchOf, inFlightCount]
  | some side =>
    have h0 := Trading.submit_start_some w side hside
    generalize hw1 : ({ w with
        log := w.log ++ [.preventDefault] ++
          [.fetch "POST" "/api/place_order"
            (some (.obj [("symbol", .str w.trading.symbol), ("orderType", .str w.trading.orderType),
              ("side", .str side), ("amount", .str w.trading.amount),
              ("price", .str w.trading.price)]))]
        inFlight := w.inFlight ++ [.placeOrder] } : World) = w1 at h0
    have hrun : (Trading.submit net w).2 = (Trading.submit.resume net w1).2 := by
      simp [Trading.submit, bind, Js.seq, h0]
    rw [hrun]
    rcases Trading.submit_resume_cases w1 net with ⟨hs, hw⟩ | ⟨hs, hw⟩
    · refine ⟨fun _ => ?_, fun h => absurd ⟨by simp, hs⟩ h⟩
      rw [hw, ← hw1]
      simp [fetchCount, List.filter, isFetchOf, inFlightCount, List.count_append, List.count_erase_of_ne]
    · refine ⟨fun h => absurd h.2 hs, fun _ => ?_⟩
      rw [hw, ← hw1]
      simp [fetchCount, List.filter, isFetchOf, inFlightCount, List.count_append, List.count_erase_of_ne]

/-- C2, witness: with the side button active and the response
`{status: "success"}`, exactly one request for the open orders is issued. -/
theorem C2_refresh_iff_success_witness :
    (orderPage.trading.activeSide ≠ none ∧
      bodyStatus (okResponse (.obj [("status", .str "success")])) = .str "success") ∧
    fetchCount "/api/open_orders"
        (Trading.submit (okResponse (.obj [("status", .str "success")])) orderPage).2.log
      = fetchCount "/api/open_orders" orderPage.log + 1 ∧
    inFlightCount (.refresh .openOrders)
        (Trading.submit (okResponse (.obj [("status", .str "success")])) orderPage).2
      = inFlightCount (.refresh .openOrders) orderPage + 1 :=
  ⟨⟨by simp [orderPage], rfl⟩,
    (C2_refresh_iff_success orderPage (okResponse (.obj [("status", .str "success")]))).1
      ⟨by simp [orderPage], rfl⟩⟩

/-! ## C5 -/

theorem reported_append (log more : List Effect) :
    reported (log ++ more) = reported log ++ reported more := by
  induction log with
  | nil => rfl
  | cons e rest ih => cases e <;> simp [reported, ih]

theorem alerts_append (log more : List Effect) :
    alerts (log ++ more) = alerts log ++ alerts more := by
  induction log with
  | nil => rfl
  | cons e rest ih => cases e <;> simp [alerts, ih]

theorem Settings.submit_start_eq (form : SettingsForm) (w : World) :
    Settings.submit.start form w = (.ok (),
      { w with
        log := w.log ++ [.preventDefault] ++
          [.fetch "POST" (Settings.url form) (some (Settings.formData w.settings form))]
        inFlight := w.inFlight ++ [.saveSettings form] }) := by
  simp [Settings.submit.start, bind, Js.seq, Js.update, Js.get, fetch]

/-- A settings handler whose request settles without a success status, the
message to report being a string: one call of `showError`, which alerts it. -/
theorem Settings.submit_resume_failure (form : SettingsForm) (w : World) (net : FetchOutcome)
    (text : String) (hs : bodyStatus net ≠ .str "success")
    (ht : failureReport (Settings.errorLead form) (Settings.failedText form) net = .str text) :
    (Settings.submit.resume form net w).2 =
      { w with
        log := w.log ++ [.showError (.str text)] ++ [.alert text]
        inFlight := w.inFlight.erase (.saveSettings form) } := by
  rcases net with e | ⟨code, e | data⟩
  · simp only [failureReport, JVal.str.injEq] at ht
    simp [Settings.submit.resume, bind, Js.seq, Js.tryCatch, awaitJson, Js.eval, settle, Js.update,
      Settings.showError, Settings.alert, Js.assign, ht, toStr]
  · simp only [failureReport, JVal.str.injEq] at ht
    simp [Settings.submit.resume, bind, Js.seq, Js.tryCatch, awaitJson, Js.eval, settle, Js.update,
      Settings.showError, Settings.alert, Js.assign, ht, toStr]
  · have hf := strictEqStr_false_of_ne (show propOf data "status" ≠ .str "success" from hs)
    rcases getProp_ok_or_error data "status" with hg | ⟨e0, hg⟩
    · have hm : getProp data "message" = .ok (propOf data "message") := getProp_of_status_ok hg
      simp only [failureReport, hg] at ht
      simp [Settings.submit.resume, bind, Js.seq, Js.tryCatch, awaitJson, Js.eval, settle,
        Js.update, Settings.showError, Settings.alert, Js.assign, hg, hf, hm, ht, toStr]
    · simp only [failureReport, hg, JVal.str.injEq] at ht
      simp [Settings.submit.resume, bind, Js.seq, Js.tryCatch, awaitJson, Js.eval, settle,
        Js.update, Settings.showError, Settings.alert, Js.assign, hg, ht, toStr]

/-- What a mutation reports when its request settles without a success status
and the message to report is the string `text`: `showError` is called once,
with `text`, and on the settings page `alert` shows `text`, once. -/
theorem Mutation.run_reported (m : Mutation) (w : World) (net : FetchOutcome) (text : String)
    (hready : m.ready w) (hs : bodyStatus net ≠ .str "success")
    (ht : failureReport m.errorLead m.failedText net = .str text) :
    reported (m.run net w).2.log = reported w.log ++ [.str text] ∧
    (∀ form, m = .save form → alerts (m.run net w).2.log = alerts w.log ++ [text]) := by
  cases m with
  | placeOrder =>
    refine ⟨?_, fun form h => by cases h⟩
    obtain ⟨side, hside⟩ := Option.ne_none_iff_exists'.mp hready
    have h0 := Trading.submit_start_some w side hside
    generalize hw1 : ({ w with
        log := w.log ++ [.preventDefault] ++
          [.fetch "POST" "/api/place_order"
            (some (.obj [("symbol", .str w.trading.symbol), ("orderType", .str w.trading.orderType),
              ("side", .str side), ("amount", .str w.trading.amount),
              ("price", .str w.trading.price)]))]
        inFlight := w.inFlight ++ [.placeOrder] } : World) = w1 at h0
    have hrun : (Trading.submit net w).2 = (Trading.submit.resume net w1).2 := by
      simp [Trading.submit, bind, Js.seq, h0]
    rcases Trading.submit_resume_cases w1 net with ⟨hs1, _⟩ | ⟨_, hw⟩
    · exact absurd hs1 hs
    · simp only [Mutation.errorLead, Mutation.failedText] at ht
      rw [Mutation.run, hrun, hw, ht, ← hw1]
      simp [reported_append, reported]
  | save form =>
    have h0 := Settings.submit_start_eq form w
    have hrun : (Settings.submit form net w).2 =
        (Settings.submit.resume form net (Settings.submit.start form w).2).2 := by
      simp [Settings.submit, bind, Js.seq, h0]
    simp only [Mutation.errorLead, Mutation.failedText] at ht
    refine ⟨?_, fun _ _ => ?_⟩
    · rw [Mutation.run, hrun, Settings.submit_resume_failure form _ net text hs ht, h0]
      simp [reported_append, reported]
    · rw [Mutation.run, hrun, Settings.submit_resume_failure form _ net text hs ht, h0]
      simp [alerts_append, alerts]

theorem orElse_of_truthy {a b : JVal} (h : truthy a = true) : orElse a b = a := by
  simp [orElse, h]

theorem orElse_of_falsy {a b : JVal} (h : truthy a = false) : orElse a b = b := by
  simp [orElse, h]

theorem failureReport_body (lead failed : String) (code : Nat) (data : JVal)
    (hn : data ≠ .null) (hu : data ≠ .undefined) :
    failureReport lead failed (.ok ⟨code, .ok data⟩) =
      orElse (propOf data "message") (.str failed) := by
  cases data <;> simp_all [failureReport, getProp]

/-- C5, as stated, fails: the body `null` parses, has no status `success` and
carries no message, yet what is reported is not the per-form failure text but
the error lead followed by the message of the `TypeError` that reading
`data.status` throws: passed to `showError` by the order form, alerted by the
API settings form. -/
theorem C5_null_body_reports_type_error :
    bodyStatus (okResponse .null) ≠ .str "success" ∧
    propOf .null "message" = .undefined ∧
    reported (Mutation.run .placeOrder (okResponse .null) orderPage).2.log
      = [.str "Error placing order: Cannot read properties of null (reading \x27status\x27)"] ∧
    reported (Mutation.run .placeOrder (okResponse .null) orderPage).2.log
      ≠ [.str (Mutation.failedText .placeOrder)] ∧
    alerts (Mutation.run (.save .api) (okResponse .null) blank).2.log
      = ["Error saving API settings: Cannot read properties of null (reading \x27status\x27)"] ∧
    alerts (Mutation.run (.save .api) (okResponse .null) blank).2.log
      ≠ [Mutation.failedText (.save .api)] := by
  have h1 : reported (Mutation.run .placeOrder (okResponse .null) orderPage).2.log
      = [.str "Error placing order: Cannot read properties of null (reading \x27status\x27)"] :=
    rfl
  have h2 : alerts (Mutation.run (.save .api) (okResponse .null) blank).2.log
      = ["Error saving API settings: Cannot read properties of null (reading \x27status\x27)"] :=
    rfl
  refine ⟨by simp [bodyStatus, okResponse, propOf], rfl, h1, ?_, h2, ?_⟩
  · rw [h1]; simp [Mutation.failedText]
  · rw [h2]; simp [Mutation.failedText, Settings.failedText]

/-- C5, amended: for each of the five mutations (place order, the four settings
saves) whose handler issued its request, exactly one message is passed to
`showError`, and on the settings page that message is what `alert` shows.
When the response body is a value other than `null` whose status is not
`success`, it is the message of the body if that is a non-empty string, and the
per-form failure text if the message is missing or falsy (`null`, `""`, `0`,
`false`).  When the fetch rejects or the body does not parse, it is the
per-form error lead followed by the message of the error; when the body is
`null`, the lead followed by the message of the `TypeError`.  In particular
`{status: "error", message: "insufficient balance"}` reports exactly
`insufficient balance`. -/
theorem C5_failure_message (m : Mutation) (w : World) (hready : m.ready w) :
    (∀ code data text, data ≠ .null → data ≠ .undefined →
      propOf data "status" ≠ .str "success" → propOf data "message" = .str text → text ≠ "" →
      reported (m.run (.ok ⟨code, .ok data⟩) w).2.log = reported w.log ++ [.str text] ∧
      (∀ form, m = .save form →
        alerts (m.run (.ok ⟨code, .ok data⟩) w).2.log = alerts w.log ++ [text])) ∧
    (∀ code data, data ≠ .null → data ≠ .undefined →
      propOf data "status" ≠ .str "success" → truthy (propOf data "message") = false →
      reported (m.run (.ok ⟨code, .ok data⟩) w).2.log = reported w.log ++ [.str m.failedText] ∧
      (∀ form, m = .save form →
        alerts (m.run (.ok ⟨code, .ok data⟩) w).2.log = alerts w.log ++ [m.failedText])) ∧
    (∀ e, reported (m.run (.error e) w).2.log
        = reported w.log ++ [.str (m.errorLead ++ e.message)] ∧
      (∀ form, m = .save form →
        alerts (m.run (.error e) w).2.log = alerts w.log ++ [m.errorLead ++ e.message])) ∧
    (∀ code e, reported (m.run (.ok ⟨code, .error e⟩) w).2.log
        = reported w.log ++ [.str (m.errorLead ++ e.message)] ∧
      (∀ form, m = .save form →
        alerts (m.run (.ok ⟨code, .error e⟩) w).2.log
          = alerts w.log ++ [m.errorLead ++ e.message])) ∧
    (∀ code, reported (m.run (.ok ⟨code, .ok .null⟩) w).2.log
        = reported w.log ++
          [.str (m.errorLead ++ "Cannot read properties of null (reading \x27status\x27)")] ∧
      (∀ form, m = .save form →
        alerts (m.run (.ok ⟨code, .ok .null⟩) w).2.log
          = alerts w.log ++
            [m.errorLead ++ "Cannot read properties of null (reading \x27status\x27)"])) ∧
    (reported (m.run (okResponse
          (.obj [("status", .str "error"), ("message", .str "insufficient balance")])) w).2.log
        = reported w.log ++ [.str "insufficient balance"] ∧
      (∀ form, m = .save form →
        alerts (m.run (okResponse
          (.obj [("status", .str "error"), ("message", .str "insufficient balance")])) w).2.log
          = alerts w.log ++ ["insufficient balance"])) := by
  refine ⟨fun code data text hn hu hs hm ht => ?_, fun code data hn hu hs hm => ?_,
    fun e => ?_, fun code e => ?_, fun code => ?_, ?_⟩
  · refine Mutation.run_reported m w _ text hready hs ?_
    rw [failureReport_body _ _ _ _ hn hu, hm]
    exact orElse_of_truthy (by simpa [truthy] using ht)
  · refine Mutation.run_reported m w _ _ hready hs ?_
    rw [failureReport_body _ _ _ _ hn hu]
    exact orElse_of_falsy hm
  · exact Mutation.run_reported m w _ _ hready (by simp [bodyStatus]) rfl
  · exact Mutation.run_reported m w _ _ hready (by simp [bodyStatus]) rfl
  · refine Mutation.run_reported m w _ _ hready (by simp [bodyStatus, propOf]) ?_
    simp only [failureReport, getProp, JVal.str.injEq]
    congr 1
  · exact Mutation.run_reported m w _ _ hready (by simp [bodyStatus, okResponse, propOf, ownProp])
      rfl

/-- C5, witness: saving the API settings, the response
`{status: "error", message: "insufficient balance"}` with HTTP status 400: the
message is passed to `showError` and alerted. -/
theorem C5_failure_message_witness :
    Mutation.ready blank (.save .api) ∧
    reported (Mutation.run (.save .api) (.ok ⟨400, .ok
        (.obj [("status", .str "error"), ("message", .str "insufficient balance")])⟩)
        blank).2.log
      = reported blank.log ++ [.str "insufficient balance"] ∧
    alerts (Mutation.run (.save .api) (.ok ⟨400, .ok
        (.obj [("status", .str "error"), ("message", .str "insufficient balance")])⟩)
        blank).2.log
      = alerts blank.log ++ ["insufficient balance"] :=
  ⟨trivial,
    ((C5_failure_message (.save .api) blank trivial).1 400
      (.obj [("status", .str "error"), ("message", .str "insufficient balance")])
      "insufficient balance" (by simp) (by simp) (by simp [propOf, ownProp]) rfl (by decide)).1,
    ((C5_failure_message (.save .api) blank trivial).1 400
      (.obj [("status", .str "error"), ("message", .str "insufficient balance")])
      "insufficient balance" (by simp) (by simp) (by simp [propOf, ownProp]) rfl (by decide)).2
      .api rfl⟩

/-! ## C7 -/

theorem renderOrder_of_renderable {order : JVal} (h : renderable order = true) :
    Trading.renderOrder order = .ok (orderHtml order) := by
  have hg : ∀ key, getProp order key = .ok (propOf order key) := by
    intro key
    cases order <;> simp_all [renderable, getProp]
  have hp : printable (propOf order "symbol") = true ∧ printable (propOf order "side") = true ∧
      printable (propOf order "price") = true ∧ printable (propOf order "amount") = true := by
    cases order <;> simp_all [renderable, and_assoc]
  simp [Trading.renderOrder, bind, Except.bind, pure, Except.pure, hg, orderHtml,
    toStr_of_printable hp.1, toStr_of_printable hp.2.1, toStr_of_printable hp.2.2.1,
    toStr_of_printable hp.2.2.2]

theorem mapE_renderOrder (items : List JVal) (h : ∀ o ∈ items, renderable o = true) :
    mapE Trading.renderOrder items = .ok (items.map orderHtml) := by
  induction items with
  | nil => rfl
  | cons o rest ih =>
    have ho := renderOrder_of_renderable (h o (List.mem_cons_self _ _))
    have hr := ih (fun x hx => h x (List.mem_cons_of_mem _ hx))
    simp [mapE, ho, hr]

/-- The open-orders continuation on a well-formed success response: the display
becomes the concatenation of the rendered orders. -/
theorem Trading.resume_orders_success (w : World) (code : Nat) (data : JVal) (items : List JVal)
    (hs : propOf data "status" = .str "success") (ho : propOf data "orders" = .arr items)
    (hr : ∀ o ∈ items, renderable o = true) :
    (Trading.updateOpenOrders.resume (.ok ⟨code, .ok data⟩) w).2.trading =
      { w.trading with openOrders := joinEmpty (items.map orderHtml) } := by
  have hg := getProp_status_of_success hs
  have hgo : getProp data "orders" = .ok (.arr items) := by
    rw [← ho]; exact getProp_of_status_ok (by rw [hg, hs])
  simp [Trading.updateOpenOrders.resume, bind, Js.seq, Js.tryCatch, awaitJson, Js.eval, settle,
    Js.update, hg, strictEqStr, Js.assign, Except.bind, hgo, arrayMap, mapE_renderOrder items hr,
    pure, Except.pure, Trading.store]

theorem itemStr_of_not_printable {v : JVal} (conv : Except JsError String)
    (h : printable v = false) : itemStr v conv = conv := by
  cases v <;> simp_all [printable, itemStr]

mutual
theorem toStr_error_of_not_printable : ∀ (v : JVal), printable v = false →
    ∃ e, toStr v = .error e
  | .undefined, h => by simp [printable] at h
  | .null, h => by simp [printable] at h
  | .bool _, h => by simp [printable] at h
  | .num _, h => by simp [printable] at h
  | .str _, h => by simp [printable] at h
  | .arr [], h => by simp [printable] at h
  | .arr (x :: rest), h => by
    simp only [toStr]
    cases hx : printable x with
    | false =>
      obtain ⟨e, he⟩ := toStr_error_of_not_printable x hx
      exact ⟨e, by rw [itemStr_of_not_printable _ hx, he]; rfl⟩
    | true =>
      have hrest : printableAll rest = false := by
        simp only [printable, hx, Bool.true_and] at h
        exact h
      obtain ⟨e, he⟩ := joinRest_error_of_not_printable rest hrest
      obtain ⟨s, hs⟩ := itemStr_ok (v := x) (toStr_ok_of_printable x hx)
      exact ⟨e, by rw [hs, he]; rfl⟩
  | .obj fields, h => by
    simp only [printable, Bool.not_eq_false'] at h
    exact ⟨typeErrorPrimitive, by simp [toStr, h]⟩
theorem joinRest_error_of_not_printable : ∀ (xs : List JVal), printableAll xs = false →
    ∃ e, joinRest xs = .error e
  | [], h => by simp [printableAll] at h
  | x :: rest, h => by
    simp only [joinRest]
    cases hx : printable x with
    | false =>
      obtain ⟨e, he⟩ := toStr_error_of_not_printable x hx
      exact ⟨e, by rw [itemStr_of_not_printable _ hx, he]; rfl⟩
    | true =>
      have hrest : printableAll rest = false := by
        simp only [printableAll, hx, Bool.true_and] at h
        exact h
      obtain ⟨e, he⟩ := joinRest_error_of_not_printable rest hrest
      obtain ⟨s, hs⟩ := itemStr_ok (v := x) (toStr_ok_of_printable x hx)
      exact ⟨e, by rw [hs, he]; rfl⟩
end

/-- The conversion succeeds exactly on the printable values. -/
theorem toStr_cases (v : JVal) :
    (printable v = true ∧ toStr v = .ok (textOf v)) ∨
    (printable v = false ∧ ∃ e, toStr v = .error e) := by
  cases h : printable v with
  | true => exact Or.inl ⟨rfl, toStr_of_printable h⟩
  | false => exact Or.inr ⟨rfl, toStr_error_of_not_printable v h⟩

theorem renderOrder_error_of_not_renderable {order : JVal} (h : renderable order = false) :
    ∃ e, Trading.renderOrder order = .error e := by
  by_cases hn : order = .null ∨ order = .undefined
  · rcases hn with rfl | rfl <;> exact ⟨_, rfl⟩
  · have hg : ∀ key, getProp order key = .ok (propOf order key) := by
      intro key
      cases order <;> simp_all [getProp]
    have hr : (printable (propOf order "symbol") && printable (propOf order "side") &&
        printable (propOf order "price") && printable (propOf order "amount")) = false := by
      cases order <;> simp_all [renderable]
    rcases toStr_cases (propOf order "symbol") with ⟨p1, h1⟩ | ⟨_, e, h1⟩
    · rcases toStr_cases (propOf order "side") with ⟨p2, h2⟩ | ⟨_, e, h2⟩
      · rcases toStr_cases (propOf order "price") with ⟨p3, h3⟩ | ⟨_, e, h3⟩
        · rcases toStr_cases (propOf order "amount") with ⟨p4, h4⟩ | ⟨_, e, h4⟩
          · rw [p1, p2, p3, p4] at hr
            cases hr
          · exact ⟨e, by simp [Trading.renderOrder, bind, Except.bind, hg, h1, h2, h3, h4]⟩
        · exact ⟨e, by simp [Trading.renderOrder, bind, Except.bind, hg, h1, h2, h3]⟩
      · exact ⟨e, by simp [Trading.renderOrder, bind, Except.bind, hg, h1, h2]⟩
    · exact ⟨e, by simp [Trading.renderOrder, bind, Except.bind, hg, h1]⟩

theorem mapE_renderOrder_error (items : List JVal) (h : ¬ ∀ o ∈ items, renderable o = true) :
    ∃ e, mapE Trading.renderOrder items = .error e := by
  induction items with
  | nil => exact absurd (fun o ho => by cases ho) h
  | cons o rest ih =>
    cases ho : renderable o with
    | false =>
      obtain ⟨e, he⟩ := renderOrder_error_of_not_renderable ho
      exact ⟨e, by simp [mapE, he]⟩
    | true =>
      have hrest : ¬ ∀ x ∈ rest, renderable x = true := by
        intro hall
        apply h
        intro x hx
        rcases List.mem_cons.mp hx with rfl | hx
        · exact ho
        · exact hall x hx
      obtain ⟨e, he⟩ := ih hrest
      exact ⟨e, by simp [mapE, renderOrder_of_renderable ho, he]⟩

/-- The open-orders continuation on a success response one of whose orders
cannot be rendered: the assignment is never reached and the page keeps its
content. -/
theorem Trading.resume_orders_abandoned (w : World) (code : Nat) (data : JVal)
    (items : List JVal) (hs : propOf data "status" = .str "success")
    (ho : propOf data "orders" = .arr items) (hr : ¬ ∀ o ∈ items, renderable o = true) :
    (Trading.updateOpenOrders.resume (.ok ⟨code, .ok data⟩) w).2.trading = w.trading := by
  have hg := getProp_status_of_success hs
  have hgo : getProp data "orders" = .ok (.arr items) := by
    rw [← ho]; exact getProp_of_status_ok (by rw [hg, hs])
  obtain ⟨e, he⟩ := mapE_renderOrder_error items hr
  simp [Trading.updateOpenOrders.resume, bind, Js.seq, Js.tryCatch, awaitJson, Js.eval, settle,
    Js.update, hg, strictEqStr, Js.assign, Except.bind, hgo, arrayMap, he, consoleError]

theorem foldl_append_joinEmpty (parts : List String) :
    ∀ acc : String, parts.foldl (fun r s => r ++ s) acc = acc ++ joinEmpty parts := by
  induction parts with
  | nil => intro acc; simp [joinEmpty]
  | cons s rest ih => intro acc; simp [joinEmpty, ih, String.append_assoc]

theorem joinEmpty_eq_join (parts : List String) : joinEmpty parts = String.join parts := by
  rw [String.join, foldl_append_joinEmpty]
  simp

/-- C7, as stated, fails: from the initial empty display, after `{status:
"error"}` and then a response with status `success` and an `orders` array of
two entries, the second of them `null`, the display is still empty: no item is
shown for either entry. -/
theorem C7_null_entry_shows_nothing :
    (refresh .openOrders
      (okResponse (.obj [("status", .str "success"), ("orders", .arr [sampleOrder, .null])]))
      (refresh .openOrders (okResponse (.obj [("status", .str "error")])) blank).2).2.trading.openOrders
      = "" :=
  rfl

/-- C7, amended: two consecutive refreshes of the open orders, from any
display.  After a first response `{status: "error"}` the markup of the list is
what it was.  After a following response with status `success` and an `orders`
array, if every entry can be rendered (it is not `null` and its symbol, side,
price and amount convert to strings) the markup assigned to the list is the
concatenation, in the order of the payload, of one block per order: the
`order-item` block below with the symbol, the side (badge `bg-success` exactly
for the side `BUY`, `bg-danger` otherwise), the price and the amount of that
order put in as they are; it is a function of that payload alone.  If some
entry cannot be rendered the assignment is not reached and the list keeps the
markup it had.  A string or a number is put in as its own text; an object whose
four values are strings or numbers can be rendered, `null` cannot. -/
theorem C7_error_then_success_markup (w : World) (code1 code2 : Nat) (second : JVal)
    (items : List JVal) (hs : propOf second "status" = .str "success")
    (ho : propOf second "orders" = .arr items) :
    (refresh .openOrders (.ok ⟨code1, .ok (.obj [("status", .str "error")])⟩) w).2.trading.openOrders
      = w.trading.openOrders ∧
    ((∀ o ∈ items, renderable o = true) →
      (refresh .openOrders (.ok ⟨code2, .ok second⟩)
        (refresh .openOrders (.ok ⟨code1, .ok (.obj [("status", .str "error")])⟩) w).2).2.trading.openOrders
        = String.join (items.map fun o =>
            "\n                <div class=\"order-item mb-2 p-2 border rounded\">" ++
            "\n                    <div class=\"d-flex justify-content-between\">" ++
            "\n                        <span>" ++ textOf (propOf o "symbol") ++ "</span>" ++
            "\n                        <span class=\"badge " ++
              (if strictEqStr (propOf o "side") "BUY" then "bg-success" else "bg-danger") ++
              "\">" ++ textOf (propOf o "side") ++ "</span>" ++
            "\n                    </div>" ++
            "\n                    <div class=\"small text-muted\">" ++
            "\n                        Price: " ++ textOf (propOf o "price") ++ "<br>" ++
            "\n                        Amount: " ++ textOf (propOf o "amount") ++
            "\n                    </div>" ++
            "\n                </div>" ++
            "\n            ")) ∧
    (¬ (∀ o ∈ items, renderable o = true) →
      (refresh .openOrders (.ok ⟨code2, .ok second⟩)
        (refresh .openOrders (.ok ⟨code1, .ok (.obj [("status", .str "error")])⟩) w).2).2.trading.openOrders
        = w.trading.openOrders) ∧
    (∀ s, textOf (.str s) = s) ∧ (∀ n, textOf (.num n) = n) ∧
    (∀ v, strictEqStr v "BUY" = true ↔ v = .str "BUY") ∧
    renderable .null = false ∧
    (∀ fields, (∀ key ∈ ["symbol", "side", "price", "amount"],
        ∃ s, ownProp fields key = .str s ∨ ownProp fields key = .num s) →
      renderable (.obj fields) = true) := by
  have h1 := (refresh_failure_pages .openOrders w code1 (.obj [("status", .str "error")])
    (by simp [propOf, ownProp])).2
  refine ⟨by rw [h1], fun hr => ?_, fun hr => ?_, fun s => rfl, fun n => rfl,
    fun v => strictEqStr_eq_true v "BUY", rfl, fun fields hf => ?_⟩
  · rw [refresh_eq]
    show (Trading.updateOpenOrders.resume _ _).2.trading.openOrders = _
    rw [Trading.resume_orders_success _ code2 second items hs ho hr]
    show joinEmpty (items.map orderHtml) = _
    rw [joinEmpty_eq_join]
    rfl
  · rw [refresh_eq]
    show (Trading.updateOpenOrders.resume _ _).2.trading.openOrders = _
    rw [Trading.resume_orders_abandoned _ code2 second items hs ho hr,
      (start_pages .openOrders _).2.2.1, h1]
  · have hp : ∀ key ∈ ["symbol", "side", "price", "amount"],
        printable (ownProp fields key) = true := by
      intro key hk
      obtain ⟨s, h | h⟩ := hf key hk <;> rw [h] <;> rfl
    simp [renderable, propOf, hp]

set_option maxRecDepth 100000 in
/-- C7, witness: from the blank page, `{status: "error"}` and then the success
response of the scenario with one order: the markup of the list, in full. -/
theorem C7_error_then_success_markup_witness :
    propOf (.obj [("status", .str "success"), ("orders", .arr [sampleOrder])]) "status"
      = .str "success" ∧
    propOf (.obj [("status", .str "success"), ("orders", .arr [sampleOrder])]) "orders"
      = .arr [.obj [("symbol", .str "BTCUSDT"), ("side", .str "BUY"), ("price", .str "30000"),
          ("amount", .str "0.1")]] ∧
    (refresh .openOrders
      (.ok ⟨200, .ok (.obj [("status", .str "success"), ("orders", .arr [sampleOrder])])⟩)
      (refresh .openOrders (.ok ⟨200, .ok (.obj [("status", .str "error")])⟩) blank).2).2.trading.openOrders
      = "\n                <div class=\"order-item mb-2 p-2 border rounded\">\n                    <div class=\"d-flex justify-content-between\">\n                        <span>BTCUSDT</span>\n                        <span class=\"badge bg-success\">BUY</span>\n                    </div>\n                    <div class=\"small text-muted\">\n                        Price: 30000<br>\n                        Amount: 0.1\n                    </div>\n                </div>\n            " := by
  refine ⟨rfl, rfl, ?_⟩
  rw [(C7_error_then_success_markup blank 200 200
    (.obj [("status", .str "success"), ("orders", .arr [sampleOrder])]) [sampleOrder] rfl rfl).2.1
    (by intro o ho; rw [List.mem_singleton] at ho; subst ho; rfl)]
  rfl

/-! ## C4 -/

theorem domText_of_printable {v : JVal} (h : printable v = true) :
    domText v = .ok (plainText v) := by
  cases v <;> simp [domText, plainText, toStr_of_printable h]

theorem plusStr_of_printable {v : JVal} (lit : String) (h : printable v = true) :
    plusStr v lit = .ok (textOf v ++ lit) := by
  simp [plusStr, toStr_of_printable h, catStr]

/-- The metrics continuation on a success response whose six values convert to
strings: all six elements are overwritten. -/
theorem Analytics.resume_metrics_success (w : World) (code : Nat) (data : JVal)
    (hs : propOf data "status" = .str "success")
    (hp : ∀ key ∈ metricKeys, printable (propOf data key) = true) :
    (Analytics.updatePerformanceMetrics.resume (.ok ⟨code, .ok data⟩) w).2.analytics =
      { w.analytics with
        totalReturn := textOf (propOf data "total_return") ++ "%"
        winRate := textOf (propOf data "win_rate") ++ "%"
        avgTrade := textOf (propOf data "avg_trade") ++ "%"
        sharpeRatio := plainText (propOf data "sharpe_ratio")
        maxDrawdown := textOf (propOf data "max_drawdown") ++ "%"
        riskReward := plainText (propOf data "risk_reward") } := by
  have hg := getProp_status_of_success hs
  have hk : ∀ key, getProp data key = .ok (propOf data key) :=
    fun key => getProp_of_status_ok (by rw [hg, hs])
  have h1 := plusStr_of_printable "%" (hp "total_return" (by simp [metricKeys]))
  have h2 := plusStr_of_printable "%" (hp "win_rate" (by simp [metricKeys]))
  have h3 := plusStr_of_printable "%" (hp "avg_trade" (by simp [metricKeys]))
  have h4 := domText_of_printable (hp "sharpe_ratio" (by simp [metricKeys]))
  have h5 := plusStr_of_printable "%" (hp "max_drawdown" (by simp [metricKeys]))
  have h6 := domText_of_printable (hp "risk_reward" (by simp [metricKeys]))
  simp [Analytics.updatePerformanceMetrics.resume, bind, Js.seq, Js.tryCatch, awaitJson, Js.eval,
    settle, Js.update, hg, strictEqStr, Js.assign, Except.bind, hk, h1, h2, h3, h4, h5, h6,
    Analytics.store]

theorem mapE_getProp (key : String) (items : List JVal)
    (h : ∀ x ∈ items, x ≠ .null ∧ x ≠ .undefined) :
    mapE (fun x => getProp x key) items = .ok (items.map (fun x => propOf x key)) := by
  induction items with
  | nil => rfl
  | cons x rest ih =>
    have hx : getProp x key = .ok (propOf x key) := by
      have := h x (List.mem_cons_self _ _)
      cases x <;> simp_all [getProp]
    have hr := ih (fun y hy => h y (List.mem_cons_of_mem _ hy))
    simp [mapE, hx, hr]

/-- The history continuation on a success response whose `history` is an array
without `null` entries: labels and data are both replaced and the chart is
redrawn. -/
theorem Analytics.resume_history_success (w : World) (code : Nat) (data : JVal) (c : Chart)
    (items : List JVal) (hs : propOf data "status" = .str "success")
    (hc : w.analytics.tradingHistoryChart = some c) (hh : propOf data "history" = .arr items)
    (hi : ∀ x ∈ items, x ≠ .null ∧ x ≠ .undefined) :
    (Analytics.updateTradingHistory.resume (.ok ⟨code, .ok data⟩) w).2.analytics =
      { w.analytics with
        tradingHistoryChart := some ⟨items.map (fun x => propOf x "date"),
          items.map (fun x => propOf x "value"), c.updates + 1⟩ } := by
  have hg := getProp_status_of_success hs
  have hk : getProp data "history" = .ok (.arr items) := by
    rw [← hh]; exact getProp_of_status_ok (by rw [hg, hs])
  simp [Analytics.updateTradingHistory.resume, bind, Js.seq, Js.tryCatch, awaitJson, Js.eval,
    settle, Js.update, hg, strictEqStr, Js.assign, Except.bind, hk, arrayMap,
    mapE_getProp _ items hi, Analytics.assignHistory, hc, Analytics.store, Analytics.redraw]

/-- The distribution continuation on a success response: the data is replaced
and the chart is redrawn. -/
theorem Analytics.resume_distribution_success (w : World) (code : Nat) (data : JVal) (c : Chart)
    (hs : propOf data "status" = .str "success")
    (hc : w.analytics.tradeDistributionChart = some c) :
    (Analytics.updateTradeDistribution.resume (.ok ⟨code, .ok data⟩) w).2.analytics =
      { w.analytics with
        tradeDistributionChart := some ⟨c.labels,
          [propOf data "winning_trades", propOf data "losing_trades"], c.updates + 1⟩ } := by
  have hg := getProp_status_of_success hs
  have hk : ∀ key, getProp data key = .ok (propOf data key) :=
    fun key => getProp_of_status_ok (by rw [hg, hs])
  simp [Analytics.updateTradeDistribution.resume, bind, Js.seq, Js.tryCatch, awaitJson, Js.eval,
    settle, Js.update, hg, strictEqStr, Js.assign, Except.bind, hk, pure, Except.pure,
    Analytics.assignDistribution, hc, Analytics.store, Analytics.redraw]

set_option maxRecDepth 100000 in
/-- C4, as stated, fails: a response with status `success` whose `orders` array
has a `null` entry, or which has no `orders` at all, leaves the open orders
showing the item of an earlier refresh. -/
theorem C4_success_without_overwrite :
    (refresh .openOrders
        (okResponse (.obj [("status", .str "success"), ("orders", .arr [sampleOrder, .null])]))
        stalePage).2.trading.openOrders = "<div>old</div>" ∧
    (refresh .openOrders (okResponse (.obj [("status", .str "success")]))
        stalePage).2.trading.openOrders = "<div>old</div>" :=
  ⟨rfl, rfl⟩

/-- C4, amended: on a response with status `success` a refresh overwrites the
displayed value of its feed with the values of the payload whenever the payload
is well-formed: for the metrics, six values that convert to strings; for the
trading history, an initialised chart and a `history` array without `null`
entries; for the trade distribution, an initialised chart; for the open orders,
an `orders` array of renderable entries.  The rest of the page is untouched.
(There is no last-refresh timestamp in the state of the page.) -/
theorem C4_success_overwrites (w : World) (code : Nat) (data : JVal)
    (hs : propOf data "status" = .str "success") :
    ((∀ key ∈ metricKeys, printable (propOf data key) = true) →
      (refresh .performanceMetrics (.ok ⟨code, .ok data⟩) w).2.analytics =
        { w.analytics with
          totalReturn := textOf (propOf data "total_return") ++ "%"
          winRate := textOf (propOf data "win_rate") ++ "%"
          avgTrade := textOf (propOf data "avg_trade") ++ "%"
          sharpeRatio := plainText (propOf data "sharpe_ratio")
          maxDrawdown := textOf (propOf data "max_drawdown") ++ "%"
          riskReward := plainText (propOf data "risk_reward") }) ∧
    (∀ c items, w.analytics.tradingHistoryChart = some c → propOf data "history" = .arr items →
      (∀ x ∈ items, x ≠ .null ∧ x ≠ .undefined) →
      (refresh .tradingHistory (.ok ⟨code, .ok data⟩) w).2.analytics =
        { w.analytics with
          tradingHistoryChart := some ⟨items.map (fun x => propOf x "date"),
            items.map (fun x => propOf x "value"), c.updates + 1⟩ }) ∧
    (∀ c, w.analytics.tradeDistributionChart = some c →
      (refresh .tradeDistribution (.ok ⟨code, .ok data⟩) w).2.analytics =
        { w.analytics with
          tradeDistributionChart := some ⟨c.labels,
            [propOf data "winning_trades", propOf data "losing_trades"], c.updates + 1⟩ }) ∧
    (∀ items, propOf data "orders" = .arr items → (∀ o ∈ items, renderable o = true) →
      (refresh .openOrders (.ok ⟨code, .ok data⟩) w).2.trading =
        { w.trading with openOrders := joinEmpty (items.map orderHtml) }) := by
  have hst := start_pages
  refine ⟨fun hp => ?_, fun c items hc hh hi => ?_, fun c hc => ?_, fun items ho hr => ?_⟩
  · rw [refresh_eq]
    show (Analytics.updatePerformanceMetrics.resume _ _).2.analytics = _
    rw [Analytics.resume_metrics_success _ code data hs hp, (hst .performanceMetrics w).2.1]
  · rw [refresh_eq]
    show (Analytics.updateTradingHistory.resume _ _).2.analytics = _
    rw [Analytics.resume_history_success _ code data c items hs
      (by rw [(hst .tradingHistory w).2.1]; exact hc) hh hi, (hst .tradingHistory w).2.1]
  · rw [refresh_eq]
    show (Analytics.updateTradeDistribution.resume _ _).2.analytics = _
    rw [Analytics.resume_distribution_success _ code data c hs
      (by rw [(hst .tradeDistribution w).2.1]; exact hc), (hst .tradeDistribution w).2.1]
  · rw [refresh_eq]
    show (Trading.updateOpenOrders.resume _ _).2.trading = _
    rw [Trading.resume_orders_success _ code data items hs ho hr, (hst .openOrders w).2.2.1]

/-- C4, witness: the open orders on the stale page, one order in the payload. -/
theorem C4_success_overwrites_witness :
    propOf (.obj [("status", .str "success"), ("orders", .arr [sampleOrder])]) "status"
      = .str "success" ∧
    (refresh .openOrders
        (.ok ⟨200, .ok (.obj [("status", .str "success"), ("orders", .arr [sampleOrder])])⟩)
        stalePage).2.trading
      = { stalePage.trading with openOrders := joinEmpty ([sampleOrder].map orderHtml) } :=
  ⟨rfl, (C4_success_overwrites stalePage 200
      (.obj [("status", .str "success"), ("orders", .arr [sampleOrder])]) rfl).2.2.2
    [sampleOrder] rfl (by intro o ho; rw [List.mem_singleton] at ho; subst ho; rfl)⟩

/-! ## C10 -/

theorem mapE_getProp_cases (key : String) (items : List JVal) :
    (∀ x ∈ items, x ≠ .null ∧ x ≠ .undefined) ∨
    ∃ e, mapE (fun x => getProp x key) items = .error e := by
  induction items with
  | nil => left; intro x hx; cases hx
  | cons x rest ih =>
    by_cases hx : x ≠ .null ∧ x ≠ .undefined
    · rcases ih with hall | ⟨e, he⟩
      · left
        intro y hy
        rcases List.mem_cons.mp hy with rfl | hy
        · exact hx
        · exact hall y hy
      · right
        have hg : getProp x key = .ok (propOf x key) := by
          cases x <;> simp_all [getProp]
        exact ⟨e, by simp [mapE, hg, he]⟩
    · right
      have hg : ∃ e, getProp x key = .error e := by
        cases x <;> simp_all [getProp]
      obtain ⟨e, he⟩ := hg
      exact ⟨e, by simp [mapE, he]⟩

/-- One settling of the trading-history request: either the analytics page is
exactly as before, or the response was a success with a `history` array free of
`null` entries and both lists of the chart were replaced from it. -/
theorem Analytics.resume_history_cases (w : World) (net : FetchOutcome) :
    (Analytics.updateTradingHistory.resume net w).2.analytics = w.analytics ∨
    ∃ c code data items, net = .ok ⟨code, .ok data⟩ ∧
      w.analytics.tradingHistoryChart = some c ∧
      propOf data "status" = .str "success" ∧ propOf data "history" = .arr items ∧
      (Analytics.updateTradingHistory.resume net w).2.analytics =
        { w.analytics with
          tradingHistoryChart := some ⟨items.map (fun x => propOf x "date"),
            items.map (fun x => propOf x "value"), c.updates + 1⟩ } := by
  rcases net with e | ⟨code, e | data⟩
  · left
    exact (resume_transport_pages .tradingHistory w _ (Or.inl ⟨e, rfl⟩)).1
  · left
    exact (resume_transport_pages .tradingHistory w _ (Or.inr ⟨code, e, rfl⟩)).1
  · by_cases hs : propOf data "status" = .str "success"
    · have hg := getProp_status_of_success hs
      have hk : getProp data "history" = .ok (propOf data "history") :=
        getProp_of_status_ok (by rw [hg, hs])
      cases hc : w.analytics.tradingHistoryChart with
      | none =>
        left
        simp [Analytics.updateTradingHistory.resume, bind, Js.seq, Js.tryCatch, awaitJson, Js.eval,
          settle, Js.update, hg, strictEqStr, Analytics.assignHistory, hc, consoleError]
      | some c =>
        cases hh : propOf data "history" with
        | arr items =>
          rcases mapE_getProp_cases "date" items with hall | ⟨e, he⟩
          · right
            exact ⟨c, code, data, items, rfl, rfl, hs, hh,
              Analytics.resume_history_success w code data c items hs hc hh hall⟩
          · left
            simp [Analytics.updateTradingHistory.resume, bind, Js.seq, Js.tryCatch, awaitJson,
              Js.eval, settle, Js.update, hg, strictEqStr, Analytics.assignHistory, hc,
              consoleError, Js.assign, Except.bind, hk, hh, arrayMap, he]
        | _ =>
          left
          simp [Analytics.updateTradingHistory.resume, bind, Js.seq, Js.tryCatch, awaitJson,
            Js.eval, settle, Js.update, hg, strictEqStr, Analytics.assignHistory, hc,
            consoleError, Js.assign, Except.bind, hk, hh, arrayMap]
    · left
      exact (resume_failure_pages .tradingHistory w code data hs).1

/-- Everything except `initializeCharts` and the trading-history continuation
leaves the trading-history chart alone. -/
theorem keeps_historyChart :
    (∀ feed net, feed ≠ .tradingHistory →
      Js.Keeps (fun w => w.analytics.tradingHistoryChart) (resume (.refresh feed) net)) ∧
    (∀ net, Js.Keeps (fun w => w.analytics.tradingHistoryChart) (resume .placeOrder net)) ∧
    (∀ form net,
      Js.Keeps (fun w => w.analytics.tradingHistoryChart) (resume (.saveSettings form) net)) ∧
    (∀ net, Js.Keeps (fun w => w.analytics.tradingHistoryChart) (resume .loadSettings net)) ∧
    (∀ feed, Js.Keeps (fun w => w.analytics.tradingHistoryChart) (start feed)) ∧
    (∀ callback, Js.Keeps (fun w => w.analytics.tradingHistoryChart) (runCallback callback)) ∧
    Js.Keeps (fun w => w.analytics.tradingHistoryChart) Trading.onLoad ∧
    Js.Keeps (fun w => w.analytics.tradingHistoryChart) Settings.onLoad ∧
    Js.Keeps (fun w => w.analytics.tradingHistoryChart) Trading.submit.start ∧
    (∀ form, Js.Keeps (fun w => w.analytics.tradingHistoryChart) (Settings.submit.start form)) := by
  refine ⟨fun feed net hf => ?_, fun net => ?_, fun form net => ?_, fun net => ?_, fun feed => ?_,
    fun callback => ?_, ?_, ?_, ?_, fun form => ?_⟩
  · cases feed
    case tradingHistory => exact absurd rfl hf
    all_goals
      simp only [resume, Analytics.updatePerformanceMetrics.resume,
        Analytics.updateTradeDistribution.resume, Trading.updateOpenOrders.resume, settle,
        consoleError]
      repeat (first
        | intro _
        | rfl
        | apply Js.keeps_bind
        | apply Js.keeps_tryCatch
        | apply Js.keeps_pure
        | apply Js.keeps_eval
        | apply Js.keeps_ite
        | apply keeps_awaitJson
        | apply Js.keeps_assign
        | apply Js.keeps_update
        | apply Analytics.keeps_assignDistribution)
  all_goals
    first
      | cases feed
      | cases callback
      | skip
  all_goals
    simp only [resume, start, runCallback, Analytics.tick, Trading.onLoad, Settings.onLoad,
      Trading.submit.start, Settings.submit.start, Trading.submit.resume, Settings.submit.resume,
      Settings.loadSettings.resume, Settings.loadSettings.start,
      Analytics.updatePerformanceMetrics.start, Analytics.updateTradingHistory.start,
      Analytics.updateTradeDistribution.start, Trading.updateOpenOrders.start,
      Trading.initializeTradingChart, Trading.initializeOrderBook, Trading.showSuccess,
      Trading.showError, Settings.showSuccess, Settings.showError, Settings.alert,
      Settings.assignValue, Settings.assignChecked, settle, consoleError, fetch, setInterval]
    repeat (first
      | intro _
      | rfl
      | apply Js.keeps_bind
      | apply Js.keeps_tryCatch
      | apply Js.keeps_pure
      | apply Js.keeps_eval
      | apply Js.keeps_get
      | apply Js.keeps_ite
      | apply keeps_awaitJson
      | apply Js.keeps_assign
      | apply Js.keeps_update)

theorem resume_history_balanced (w : World) (net : FetchOutcome) (h : chartBalanced w) :
    chartBalanced (Analytics.updateTradingHistory.resume net w).2 := by
  rcases Analytics.resume_history_cases w net with hsame | ⟨c, code, data, items, _, _, _, _, hw⟩
  · intro c hc
    rw [hsame] at hc
    exact h c hc
  · intro c1 hc
    rw [hw] at hc
    cases hc
    simp

theorem step_balanced (w : World) (ev : Event) (h : chartBalanced w) :
    chartBalanced (step w ev) := by
  obtain ⟨hres, hplace, hsave, hload, hstart, hcall, htl, hsl, hts, hss⟩ := keeps_historyChart
  have keep : ∀ {w1 : World}, w1.analytics.tradingHistoryChart = w.analytics.tradingHistoryChart →
      chartBalanced w1 := by
    intro w1 heq c hc
    exact h c (heq ▸ hc)
  cases ev with
  | analyticsLoaded =>
    intro c hc
    simp [step, Analytics.onLoad, bind, Js.seq, Analytics.initializeCharts, Js.update,
      Analytics.updatePerformanceMetrics.start, Analytics.updateTradingHistory.start,
      Analytics.updateTradeDistribution.start, fetch, setInterval] at hc
    subst hc
    rfl
  | tradingLoaded => exact keep (htl.same w)
  | settingsLoaded => exact keep (hsl.same w)
  | timer index =>
    simp only [step]
    split
    · exact keep ((hcall _).same w)
    · exact h
  | orderSubmitted => exact keep (hts.same w)
  | settingsSubmitted form => exact keep ((hss form).same w)
  | settled who net =>
    simp only [step]
    split
    · cases who with
      | refresh feed =>
        by_cases hf : feed = .tradingHistory
        · subst hf
          exact resume_history_balanced w net h
        · exact keep ((hres feed net hf).same w)
      | placeOrder => exact keep ((hplace net).same w)
      | saveSettings form => exact keep ((hsave form net).same w)
      | loadSettings => exact keep ((hload net).same w)
    · exact h

theorem run_balanced (events : List Event) : ∀ (w : World), chartBalanced w →
    chartBalanced (run w events) := by
  induction events with
  | nil => intro w h; exact h
  | cons ev rest ih => intro w h; exact ih (step w ev) (step_balanced w ev h)

/-- One refresh of the trading history, call to completion: the chart stays
created, and its two lists are both kept or both replaced from the payload. -/
theorem refresh_history_cases (w : World) (net : FetchOutcome) (c : Chart)
    (hc : w.analytics.tradingHistoryChart = some c) :
    ∃ c1, (refresh .tradingHistory net w).2.analytics.tradingHistoryChart = some c1 ∧
      ((c1.labels = c.labels ∧ c1.data = c.data) ∨
        ∃ code data items, net = .ok ⟨code, .ok data⟩ ∧ propOf data "history" = .arr items ∧
          c1.labels = items.map (fun x => propOf x "date") ∧
          c1.data = items.map (fun x => propOf x "value")) := by
  have hs := (start_pages .tradingHistory w).2.1
  rw [refresh_eq]
  show ∃ c1, (Analytics.updateTradingHistory.resume net _).2.analytics.tradingHistoryChart = some c1 ∧ _
  rcases Analytics.resume_history_cases (start .tradingHistory w).2 net with
    hsame | ⟨c0, code, data, items, hnet, _, _, hh, hw⟩
  · exact ⟨c, by rw [hsame, hs, hc], Or.inl ⟨rfl, rfl⟩⟩
  · exact ⟨_, by rw [hw], Or.inr ⟨code, data, items, hnet, hh, rfl, rfl⟩⟩

theorem refreshHistoryAll_created (nets : List FetchOutcome) : ∀ (w : World) (c : Chart),
    w.analytics.tradingHistoryChart = some c → c.labels.length = c.data.length →
    ∃ c1, (refreshHistoryAll nets w).analytics.tradingHistoryChart = some c1 ∧
      c1.labels.length = c1.data.length := by
  induction nets with
  | nil => intro w c hc hl; exact ⟨c, hc, hl⟩
  | cons net rest ih =>
    intro w c hc hl
    obtain ⟨c1, hc1, hcase⟩ := refresh_history_cases w net c hc
    refine ih (refresh .tradingHistory net w).2 c1 hc1 ?_
    rcases hcase with ⟨h1, h2⟩ | ⟨_, _, items, _, _, h1, h2⟩
    · rw [h1, h2]; exact hl
    · rw [h1, h2]; simp

/-- C10: `updateTradingHistory` keeps the label list and the value list of the
chart in step.  From the chart `initializeCharts` creates (both lists empty),
after any sequence of refreshes with arbitrary outcomes (any JSON body, an
unparseable body, a rejected fetch) the chart has as many labels as values.
After a single refresh either both lists are the dates and the values of the
entries of the `history` array of the payload, in order, or both are unchanged.
The equality of lengths also holds after any sequence of events of the event
loop that follows the page load, however requests and timers interleave. -/
theorem C10_history_lists_in_step :
    (∀ (w : World) (nets : List FetchOutcome), ∃ c,
      (refreshHistoryAll nets (Analytics.initializeCharts w).2).analytics.tradingHistoryChart
        = some c ∧ c.labels.length = c.data.length) ∧
    (∀ (w : World) (net : FetchOutcome) (c : Chart), w.analytics.tradingHistoryChart = some c →
      ∃ c1, (refresh .tradingHistory net w).2.analytics.tradingHistoryChart = some c1 ∧
        ((c1.labels = c.labels ∧ c1.data = c.data) ∨
          ∃ code data items, net = .ok ⟨code, .ok data⟩ ∧ propOf data "history" = .arr items ∧
            c1.labels = items.map (fun x => propOf x "date") ∧
            c1.data = items.map (fun x => propOf x "value"))) ∧
    (∀ (w : World) (events : List Event) (c : Chart),
      (run (step w .analyticsLoaded) events).analytics.tradingHistoryChart = some c →
      c.labels.length = c.data.length) := by
  refine ⟨fun w nets => ?_, refresh_history_cases, fun w events c hc => ?_⟩
  · exact refreshHistoryAll_created nets _ ⟨[], [], 0⟩ rfl rfl
  · refine run_balanced events (step w .analyticsLoaded) ?_ c hc
    intro c0 h0
    simp [step, Analytics.onLoad, bind, Js.seq, Analytics.initializeCharts, Js.update,
      Analytics.updatePerformanceMetrics.start, Analytics.updateTradingHistory.start,
      Analytics.updateTradeDistribution.start, fetch, setInterval] at h0
    subst h0
    rfl

/-- C10, witness: on the page right after `initializeCharts`, a success response
whose second history entry is `null`: the chart is still there with both lists
kept or both replaced. -/
theorem C10_history_lists_in_step_witness :
    chartsPage.analytics.tradingHistoryChart = some ⟨[], [], 0⟩ ∧
    ∃ c1, (refresh .tradingHistory
        (okResponse (.obj [("status", .str "success"),
          ("history", .arr [.obj [("date", .str "2024-01-01"), ("value", .num "100")], .null])]))
        chartsPage).2.analytics.tradingHistoryChart = some c1 ∧
      ((c1.labels = [] ∧ c1.data = []) ∨
        ∃ code data items,
          okResponse (.obj [("status", .str "success"),
            ("history", .arr [.obj [("date", .str "2024-01-01"), ("value", .num "100")], .null])])
            = .ok ⟨code, .ok data⟩ ∧
          propOf data "history" = .arr items ∧
          c1.labels = items.map (fun x => propOf x "date") ∧
          c1.data = items.map (fun x => propOf x "value")) :=
  ⟨rfl, C10_history_lists_in_step.2.1 chartsPage _ ⟨[], [], 0⟩ rfl⟩

/-! ## C3 -/

/-- Calling a refresh function issues exactly one request to the endpoint of
its feed and suspends exactly one more continuation of that feed, whatever is
already in flight. -/
theorem start_counts (feed other : Feed) (w : World) :
    fetchCount (feedUrl other) (start feed w).2.log
      = fetchCount (feedUrl other) w.log + (if other = feed then 1 else 0) ∧
    inFlightCount (.refresh other) (start feed w).2
      = inFlightCount (.refresh other) w + (if other = feed then 1 else 0) := by
  cases feed <;> cases other <;>
    simp [start, Analytics.updatePerformanceMetrics.start, Analytics.updateTradingHistory.start,
      Analytics.updateTradeDistribution.start, Trading.updateOpenOrders.start, fetch, Js.update,
      fetchCount, List.filter, isFetchOf, feedUrl, inFlightCount, List.count_append]

/-- The timer callback of the analytics page calls each of its three refresh
functions once, and not the one of the open orders. -/
theorem tick_counts (feed : Feed) (w : World) :
    fetchCount (feedUrl feed) (Analytics.tick w).2.log
      = fetchCount (feedUrl feed) w.log + (if feed = .openOrders then 0 else 1) ∧
    inFlightCount (.refresh feed) (Analytics.tick w).2
      = inFlightCount (.refresh feed) w + (if feed = .openOrders then 0 else 1) ∧
    (Analytics.tick w).2.timers = w.timers := by
  cases feed <;>
    simp [Analytics.tick, bind, Js.seq, Analytics.updatePerformanceMetrics.start,
      Analytics.updateTradingHistory.start, Analytics.updateTradeDistribution.start, fetch,
      Js.update, fetchCount, List.filter, isFetchOf, feedUrl, inFlightCount, List.count_append]

/-- The load handler of the analytics page: one call of each of its refresh
functions and one timer of 30000 ms. -/
theorem analytics_onLoad_counts (feed : Feed) (w : World) :
    fetchCount (feedUrl feed) (Analytics.onLoad w).2.log
      = fetchCount (feedUrl feed) w.log + (if feed = .openOrders then 0 else 1) ∧
    inFlightCount (.refresh feed) (Analytics.onLoad w).2
      = inFlightCount (.refresh feed) w + (if feed = .openOrders then 0 else 1) ∧
    (Analytics.onLoad w).2.timers = w.timers ++ [(30000, .analyticsTick)] := by
  cases feed <;>
    simp [Analytics.onLoad, Analytics.initializeCharts, bind, Js.seq,
      Analytics.updatePerformanceMetrics.start, Analytics.updateTradingHistory.start,
      Analytics.updateTradeDistribution.start, fetch, setInterval,
      Js.update, fetchCount, List.filter, isFetchOf, feedUrl, inFlightCount, List.count_append]

/-- The load handler of the trading page: one call of `updateOpenOrders` and
one timer of 5000 ms. -/
theorem trading_onLoad_counts (feed : Feed) (w : World) :
    fetchCount (feedUrl feed) (Trading.onLoad w).2.log
      = fetchCount (feedUrl feed) w.log + (if feed = .openOrders then 1 else 0) ∧
    inFlightCount (.refresh feed) (Trading.onLoad w).2
      = inFlightCount (.refresh feed) w + (if feed = .openOrders then 1 else 0) ∧
    (Trading.onLoad w).2.timers = w.timers ++ [(5000, .updateOpenOrders)] := by
  cases feed <;>
    simp [Trading.onLoad, Trading.initializeTradingChart, Trading.initializeOrderBook, bind,
      Js.seq, pure, Js.ret, Trading.updateOpenOrders.start, fetch, setInterval, Trading.store,
      Js.update, fetchCount, List.filter, isFetchOf, feedUrl, inFlightCount, List.count_append]

/-- C3, as stated, fails: on the trading page the load handler and the first
timer tick, with no response in between, leave two requests for the open
orders in flight, and so do the load handler and a successful order
submission; each trigger issued its own fetch. -/
theorem C3_two_requests_in_flight :
    inFlightCount (.refresh .openOrders) (run blank [.tradingLoaded, .timer 0]) = 2 ∧
    fetchCount "/api/open_orders" (run blank [.tradingLoaded, .timer 0]).log = 2 ∧
    inFlightCount (.refresh .openOrders)
      (run orderPage [.tradingLoaded, .orderSubmitted,
        .settled .placeOrder (okResponse (.obj [("status", .str "success")]))]) = 2 := by
  refine ⟨?_, ?_, ?_⟩ <;> decide

/-- A refresh continuation takes its own request out of flight and puts nothing
in. -/
theorem resume_refresh_inFlight (feed : Feed) (net : FetchOutcome) (w : World) :
    (resume (.refresh feed) net w).2.inFlight = w.inFlight.erase (.refresh feed) := by
  cases feed <;>
    simp only [resume, Analytics.updatePerformanceMetrics.resume,
      Analytics.updateTradingHistory.resume, Analytics.updateTradeDistribution.resume,
      Trading.updateOpenOrders.resume, bind, Js.seq, settle, Js.update, consoleError] <;>
    refine @Js.Keeps.same _ _ (fun w => w.inFlight) _ ?_ _ <;>
    repeat (first
      | apply Js.keeps_bind
      | apply Js.keeps_tryCatch
      | apply Js.keeps_pure
      | apply Js.keeps_eval
      | apply Js.keeps_ite
      | apply keeps_awaitJson
      | apply Js.keeps_assign
      | apply Js.keeps_update
      | apply Analytics.keeps_assignHistory
      | apply Analytics.keeps_assignDistribution
      | intro _
      | rfl)

/-- C3, amended: no refresh is ever skipped.  Calling a refresh function issues
its fetch at once and adds one request in flight for its feed, whatever is in
flight already; and each trigger is such a call: the load handler of either
page, a tick of either timer, and the settling of a place-order request with
status `success`.  The number in flight only goes down, by one, when a request
of the feed settles. -/
theorem C3_every_trigger_fetches (feed : Feed) (w : World) :
    (fetchCount (feedUrl feed) (start feed w).2.log = fetchCount (feedUrl feed) w.log + 1 ∧
      inFlightCount (.refresh feed) (start feed w).2 = inFlightCount (.refresh feed) w + 1) ∧
    inFlightCount (.refresh .openOrders) (step w .tradingLoaded)
      = inFlightCount (.refresh .openOrders) w + 1 ∧
    (feed ≠ .openOrders → inFlightCount (.refresh feed) (step w .analyticsLoaded)
      = inFlightCount (.refresh feed) w + 1) ∧
    (∀ index ms, w.timers[index]? = some (ms, .updateOpenOrders) →
      inFlightCount (.refresh .openOrders) (step w (.timer index))
        = inFlightCount (.refresh .openOrders) w + 1) ∧
    (∀ index ms, feed ≠ .openOrders → w.timers[index]? = some (ms, .analyticsTick) →
      inFlightCount (.refresh feed) (step w (.timer index))
        = inFlightCount (.refresh feed) w + 1) ∧
    (∀ net, .placeOrder ∈ w.inFlight → bodyStatus net = .str "success" →
      inFlightCount (.refresh .openOrders) (step w (.settled .placeOrder net))
        = inFlightCount (.refresh .openOrders) w + 1) ∧
    (∀ net, .refresh feed ∈ w.inFlight →
      inFlightCount (.refresh feed) (step w (.settled (.refresh feed) net)) + 1
        = inFlightCount (.refresh feed) w) := by
  refine ⟨?_, ?_, fun hf => ?_, fun index ms ht => ?_, fun index ms hf ht => ?_,
    fun net hin hs => ?_, fun net hin => ?_⟩
  · have h := start_counts feed feed w
    simpa using h
  · have h := (trading_onLoad_counts .openOrders w).2.1
    simpa [step] using h
  · have h := (analytics_onLoad_counts feed w).2.1
    simpa [step, hf] using h
  · have h := (start_counts .openOrders .openOrders w).2
    simpa [step, ht, runCallback, start] using h
  · have h := (tick_counts feed w).2.1
    simpa [step, ht, runCallback, hf] using h
  · rcases Trading.submit_resume_cases w net with ⟨_, hw⟩ | ⟨hne, _⟩
    · simp only [step, hin, if_true, resume]
      rw [hw]
      simp [inFlightCount, List.count_append, List.count_erase_of_ne]
    · exact absurd hs hne
  · simp only [step, hin, if_true]
    rw [inFlightCount, resume_refresh_inFlight, List.count_erase_self]
    have hpos : 0 < List.count (Pending.refresh feed) w.inFlight := List.count_pos_iff.mpr hin
    simp only [inFlightCount]
    omega

/-- C3, witness: the trading page after its load handler, the request of the
load still in flight; the tick of timer 0 adds a second one. -/
theorem C3_every_trigger_fetches_witness :
    (step blank .tradingLoaded).timers[0]? = some (5000, .updateOpenOrders) ∧
    inFlightCount (.refresh .openOrders) (step blank .tradingLoaded) = 1 ∧
    inFlightCount (.refresh .openOrders) (step (step blank .tradingLoaded) (.timer 0))
      = inFlightCount (.refresh .openOrders) (step blank .tradingLoaded) + 1 :=
  ⟨rfl, by decide,
    (C3_every_trigger_fetches .openOrders (step blank .tradingLoaded)).2.2.2.1 0 5000 rfl⟩

/-! ## C8 -/

theorem times_count {f : World → World} {count : World → Nat} {k : Nat}
    (hf : ∀ x, count (f x) = count x + k) (n : Nat) :
    ∀ w, count (times f n w) = count w + n * k := by
  induction n with
  | zero => intro w; simp [times]
  | succ n ih =>
    intro w
    rw [times, ih (f w), hf w, Nat.succ_mul]
    omega

theorem elapse_single (t ms : Nat) (callback : Callback) (w : World)
    (h : w.timers = [(ms, callback)]) :
    elapse t w = times (fun x => (runCallback callback x).2) (t / ms) w := by
  simp [elapse, h]

/-- C8: at page load every feed is refreshed once at once and a timer is
registered: on the analytics page one timer of 30000 ms whose callback calls
the refresh of the metrics, the history and the distribution once each; on the
trading page one timer of 5000 ms whose callback calls the refresh of the open
orders once.  Hence `t` milliseconds after the load, the timer having fired
`t / interval` times, each feed has been fetched `1 + t / interval` times. -/
theorem C8_load_and_polling (w : World) (hw : w.timers = []) :
    (step w .analyticsLoaded).timers = [(30000, .analyticsTick)] ∧
    (∀ feed, feed ≠ .openOrders →
      fetchCount (feedUrl feed) (step w .analyticsLoaded).log
        = fetchCount (feedUrl feed) w.log + 1 ∧
      ∀ t, fetchCount (feedUrl feed) (elapse t (step w .analyticsLoaded)).log
        = fetchCount (feedUrl feed) w.log + 1 + t / 30000) ∧
    (step w .tradingLoaded).timers = [(5000, .updateOpenOrders)] ∧
    (fetchCount (feedUrl .openOrders) (step w .tradingLoaded).log
        = fetchCount (feedUrl .openOrders) w.log + 1 ∧
      ∀ t, fetchCount (feedUrl .openOrders) (elapse t (step w .tradingLoaded)).log
        = fetchCount (feedUrl .openOrders) w.log + 1 + t / 5000) ∧
    (∀ (w1 : World) (feed : Feed),
      fetchCount (feedUrl feed) (runCallback .analyticsTick w1).2.log
        = fetchCount (feedUrl feed) w1.log + (if feed = .openOrders then 0 else 1)) ∧
    (∀ (w1 : World) (feed : Feed),
      fetchCount (feedUrl feed) (runCallback .updateOpenOrders w1).2.log
        = fetchCount (feedUrl feed) w1.log + (if feed = .openOrders then 1 else 0)) := by
  have ha : (step w .analyticsLoaded).timers = [(30000, .analyticsTick)] := by
    have h := (analytics_onLoad_counts .openOrders w).2.2
    simpa [step, hw] using h
  have ht : (step w .tradingLoaded).timers = [(5000, .updateOpenOrders)] := by
    have h := (trading_onLoad_counts .openOrders w).2.2
    simpa [step, hw] using h
  refine ⟨ha, fun feed hf => ?_, ht, ?_, fun w1 feed => ?_, fun w1 feed => ?_⟩
  · have h1 : fetchCount (feedUrl feed) (step w .analyticsLoaded).log
        = fetchCount (feedUrl feed) w.log + 1 := by
      have h := (analytics_onLoad_counts feed w).1
      simpa [step, hf] using h
    refine ⟨h1, fun t => ?_⟩
    rw [elapse_single t 30000 .analyticsTick _ ha]
    have hk := @times_count (fun x => (runCallback .analyticsTick x).2)
      (fun x => fetchCount (feedUrl feed) x.log) 1
      (fun x => by have h := (tick_counts feed x).1; simpa [runCallback, hf] using h)
      (t / 30000) (step w .analyticsLoaded)
    simp only [Nat.mul_one] at hk
    rw [hk, h1]
  · have h1 : fetchCount (feedUrl .openOrders) (step w .tradingLoaded).log
        = fetchCount (feedUrl .openOrders) w.log + 1 := by
      have h := (trading_onLoad_counts .openOrders w).1
      simpa [step] using h
    refine ⟨h1, fun t => ?_⟩
    rw [elapse_single t 5000 .updateOpenOrders _ ht]
    have hk := @times_count (fun x => (runCallback .updateOpenOrders x).2)
      (fun x => fetchCount (feedUrl .openOrders) x.log) 1
      (fun x => by
        have h := (start_counts .openOrders .openOrders x).1
        simpa [runCallback, start] using h)
      (t / 5000) (step w .tradingLoaded)
    simp only [Nat.mul_one] at hk
    rw [hk, h1]
  · exact (tick_counts feed w1).1
  · have h := (start_counts .openOrders feed w1).1
    simpa [runCallback, start] using h

/-- C8, witness: the blank page has no timer; one minute after the load of the
trading page the open orders have been fetched thirteen times. -/
theorem C8_load_and_polling_witness :
    blank.timers = [] ∧
    fetchCount (feedUrl .openOrders) (elapse 60000 (step blank .tradingLoaded)).log
      = fetchCount (feedUrl .openOrders) blank.log + 1 + 60000 / 5000 :=
  ⟨rfl, ((C8_load_and_polling blank rfl).2.2.2.1).2 60000⟩

/-! ## C9 -/

theorem Settings.assignValue_ok (data : JVal) (key : String) (fallback : JVal) (text : String)
    (put : String → SettingsDom → SettingsDom) (w : World)
    (hk : getProp data key = .ok (propOf data key)) (hp : printable (propOf data key) = true)
    (hf : domValue fallback = .ok text) :
    Settings.assignValue data key fallback put w =
      (.ok (), Settings.store (put (shownValue (propOf data key) text)) w) := by
  by_cases ht : truthy (propOf data key) = true
  · have hd : domValue (propOf data key) = .ok (textOf (propOf data key)) := by
      have := toStr_of_printable hp
      cases hv : propOf data key <;> simp_all [domValue, truthy]
    simp [Settings.assignValue, Js.assign, bind, Except.bind, hk, orElse, ht, hd, shownValue]
  · simp [Settings.assignValue, Js.assign, bind, Except.bind, hk, orElse, ht, hf, shownValue]

theorem truthy_orElse_false (v : JVal) : truthy (orElse v (.bool false)) = truthy v := by
  by_cases ht : truthy v = true
  · rw [orElse_of_truthy ht]
  · rw [Bool.not_eq_true] at ht
    rw [orElse_of_falsy ht, ht]
    rfl

theorem Settings.assignChecked_ok (data : JVal) (key : String)
    (put : Bool → SettingsDom → SettingsDom) (w : World)
    (hk : getProp data key = .ok (propOf data key)) :
    Settings.assignChecked data key put w =
      (.ok (), Settings.store (put (truthy (propOf data key))) w) := by
  simp [Settings.assignChecked, Js.assign, bind, Except.bind, hk, pure, Except.pure,
    truthy_orElse_false]

/-- The continuation of `loadSettings` on a success response whose nine values
convert to strings: every field is overwritten, with the value when it is
truthy and with the default otherwise. -/
theorem Settings.resume_load_success (w : World) (code : Nat) (data : JVal)
    (hs : propOf data "status" = .str "success")
    (hp : ∀ key ∈ valueKeys, printable (propOf data key) = true) :
    (Settings.loadSettings.resume (.ok ⟨code, .ok data⟩) w).2.settings =
      { apiKey := shownValue (propOf data "api_key") ""
        apiSecret := shownValue (propOf data "api_secret") ""
        tradingPair := shownValue (propOf data "trading_pair") "BTCUSDT"
        positionSize := shownValue (propOf data "position_size") "10"
        stopLoss := shownValue (propOf data "stop_loss") "2"
        takeProfit := shownValue (propOf data "take_profit") "4"
        emailNotifications := truthy (propOf data "email_notifications")
        tradeNotifications := truthy (propOf data "trade_notifications")
        errorNotifications := truthy (propOf data "error_notifications")
        maxDailyLoss := shownValue (propOf data "max_daily_loss") "5"
        maxPositions := shownValue (propOf data "max_positions") "3"
        leverage := shownValue (propOf data "leverage") "1" } := by
  have hg := getProp_status_of_success hs
  have hk : ∀ key, getProp data key = .ok (propOf data key) :=
    fun key => getProp_of_status_ok (by rw [hg, hs])
  have hv : ∀ key fallback text put w1, key ∈ valueKeys → domValue fallback = .ok text →
      Settings.assignValue data key fallback put w1 =
        (.ok (), Settings.store (put (shownValue (propOf data key) text)) w1) :=
    fun key fallback text put w1 hmem hf =>
      Settings.assignValue_ok data key fallback text put w1 (hk key) (hp key hmem) hf
  have hc : ∀ key put w1, Settings.assignChecked data key put w1 =
      (.ok (), Settings.store (put (truthy (propOf data key))) w1) :=
    fun key put w1 => Settings.assignChecked_ok data key put w1 (hk key)
  simp [Settings.loadSettings.resume, bind, Js.seq, Js.tryCatch, awaitJson, Js.eval, settle,
    Js.update, hg, strictEqStr, hc, Settings.store,
    hv "api_key" (.str "") "" _ _ (by simp [valueKeys]) rfl,
    hv "api_secret" (.str "") "" _ _ (by simp [valueKeys]) rfl,
    hv "trading_pair" (.str "BTCUSDT") "BTCUSDT" _ _ (by simp [valueKeys]) rfl,
    hv "position_size" (.num "10") "10" _ _ (by simp [valueKeys]) rfl,
    hv "stop_loss" (.num "2") "2" _ _ (by simp [valueKeys]) rfl,
    hv "take_profit" (.num "4") "4" _ _ (by simp [valueKeys]) rfl,
    hv "max_daily_loss" (.num "5") "5" _ _ (by simp [valueKeys]) rfl,
    hv "max_positions" (.num "3") "3" _ _ (by simp [valueKeys]) rfl,
    hv "leverage" (.num "1") "1" _ _ (by simp [valueKeys]) rfl]

theorem Settings.loadSettings_eq (net : FetchOutcome) (w : World) :
    (Settings.loadSettings net w).2 =
      (Settings.loadSettings.resume net
        { w with log := w.log ++ [.fetch "GET" "/api/settings" none]
                 inFlight := w.inFlight ++ [.loadSettings] }).2 := by
  simp [Settings.loadSettings, Settings.loadSettings.start, bind, Js.seq, fetch, Js.update]

/-- C9, as stated, fails: the server supplies every setting, the stop loss
being 0; the stop-loss field shows the default 2, while the position size shows
the supplied 25. -/
theorem C9_zero_stop_loss_shows_default :
    propOf zeroStopSettings "stop_loss" = .num "0" ∧
    (Settings.loadSettings (okResponse zeroStopSettings) blank).2.settings.stopLoss = "2" ∧
    (Settings.loadSettings (okResponse zeroStopSettings) blank).2.settings.positionSize = "25" :=
  ⟨rfl, rfl, rfl⟩

/-- C9, amended: for every successful settings response whose values convert
to strings, `loadSettings` shows in each text field the value the server
supplied when that value is truthy, and the default (trading pair `BTCUSDT`,
position size 10, stop loss 2, take profit 4, max daily loss 5, max positions
3, leverage 1, empty API key and secret) when it is missing or falsy (`0`,
`""`, `null`, `false`); each notification checkbox is checked exactly when the
supplied value is truthy. -/
theorem C9_settings_shown_or_default (w : World) (code : Nat) (data : JVal)
    (hs : propOf data "status" = .str "success")
    (hp : ∀ key ∈ valueKeys, printable (propOf data key) = true) :
    (Settings.loadSettings (.ok ⟨code, .ok data⟩) w).2.settings =
      { apiKey := shownValue (propOf data "api_key") ""
        apiSecret := shownValue (propOf data "api_secret") ""
        tradingPair := shownValue (propOf data "trading_pair") "BTCUSDT"
        positionSize := shownValue (propOf data "position_size") "10"
        stopLoss := shownValue (propOf data "stop_loss") "2"
        takeProfit := shownValue (propOf data "take_profit") "4"
        emailNotifications := truthy (propOf data "email_notifications")
        tradeNotifications := truthy (propOf data "trade_notifications")
        errorNotifications := truthy (propOf data "error_notifications")
        maxDailyLoss := shownValue (propOf data "max_daily_loss") "5"
        maxPositions := shownValue (propOf data "max_positions") "3"
        leverage := shownValue (propOf data "leverage") "1" } ∧
    (∀ s fallback, s ≠ "" → shownValue (.str s) fallback = s) ∧
    (∀ n fallback, n ≠ "0" → n ≠ "NaN" → shownValue (.num n) fallback = n) ∧
    (∀ fallback, shownValue .undefined fallback = fallback ∧
      shownValue .null fallback = fallback ∧ shownValue (.num "0") fallback = fallback ∧
      shownValue (.str "") fallback = fallback ∧ shownValue (.bool false) fallback = fallback) := by
  refine ⟨?_, fun s fallback h => ?_, fun n fallback h0 h1 => ?_, fun fallback => ?_⟩
  · rw [Settings.loadSettings_eq]
    exact Settings.resume_load_success _ code data hs hp
  · simp [shownValue, truthy, h, textOf, toStr]
  · simp [shownValue, truthy, h0, h1, textOf, toStr]
  · simp [shownValue, truthy]

/-- C9, witness: the response that supplies every setting with stop loss 0, on
the blank page. -/
theorem C9_settings_shown_or_default_witness :
    propOf zeroStopSettings "status" = .str "success" ∧
    (∀ key ∈ valueKeys, printable (propOf zeroStopSettings key) = true) ∧
    (Settings.loadSettings (.ok ⟨200, .ok zeroStopSettings⟩) blank).2.settings =
      { apiKey := shownValue (propOf zeroStopSettings "api_key") ""
        apiSecret := shownValue (propOf zeroStopSettings "api_secret") ""
        tradingPair := shownValue (propOf zeroStopSettings "trading_pair") "BTCUSDT"
        positionSize := shownValue (propOf zeroStopSettings "position_size") "10"
        stopLoss := shownValue (propOf zeroStopSettings "stop_loss") "2"
        takeProfit := shownValue (propOf zeroStopSettings "take_profit") "4"
        emailNotifications := truthy (propOf zeroStopSettings "email_notifications")
        tradeNotifications := truthy (propOf zeroStopSettings "trade_notifications")
        errorNotifications := truthy (propOf zeroStopSettings "error_notifications")
        maxDailyLoss := shownValue (propOf zeroStopSettings "max_daily_loss") "5"
        maxPositions := shownValue (propOf zeroStopSettings "max_positions") "3"
        leverage := shownValue (propOf zeroStopSettings "leverage") "1" } :=
  ⟨rfl, by decide,
    (C9_settings_shown_or_default blank 200 zeroStopSettings rfl (by decide)).1⟩

end Chrollos
